import Mathlib

/-!
Verification development for the hyperfect-site license / update gateway.

The definitions below are a shallow embedding of the JavaScript source:

* `src/api/_license-utils.js` — license-record normalization, masking and the
  `validateLicenseRecord` state machine (effects made explicit: the Stripe
  metadata write performed by a validation is returned as an `Option` value).
* `src/api/_updates-utils.js` / `src/api/updates-download.js` /
  `src/api/download.js` — channel/platform/arch normalization, the HMAC token
  scheme (`signToken` / `verifyToken`) and the download / feed handlers.
* `src/unnamed/part_000` (the current revision of the updates utilities) — the
  release-host resolver: `normalizeManifestName`, `listReleasesForChannel`,
  `listManifestAssets`, `isArtifactCompatible`, `compareLooseSemver`,
  `parseManifestYml`, `getEnvUpdateConfig`, `getGitHubUpdateConfig`,
  `getUpdatesSourceMode`, `getUpdateConfig`.

Library / platform functionality that is not part of the repository
(Node `crypto` HMAC, base64url `Buffer` codecs, `JSON.stringify/parse`,
`decodeURIComponent`, `Date.parse`, the network `fetch`) is passed in as
explicit function parameters; repository logic is translated directly.
JavaScript strings are modelled as Lean `String` (ASCII-faithful), machine
integers as `Int`/`Nat`.
-/

namespace Hyperfect

/-! ## JavaScript string primitives -/

/-- JS `\s` whitespace for the ASCII range (space, tab, LF, CR, VT, FF). -/
def isJsWS (c : Char) : Bool :=
  c = ' ' || c = '\t' || c = '\n' || c = '\x0d' || c = '\x0b' || c = '\x0c'

/-- Decimal value of a run of digit characters (most significant first). -/
def digitsToNat (ds : List Char) : Nat :=
  ds.foldl (fun acc d => 10 * acc + (d.toNat - 48)) 0

/-- Helper for `String.replace(/\s+/g, ' ')`: collapse every maximal
whitespace run to a single space. The boolean records whether the previous
character was whitespace. -/
def collapseWSAux : Bool → List Char → List Char
  | _, [] => []
  | inWS, c :: rest =>
    if isJsWS c then
      if inWS then collapseWSAux true rest
      else ' ' :: collapseWSAux true rest
    else c :: collapseWSAux false rest

def collapseWS (cs : List Char) : List Char := collapseWSAux false cs

/-- JS `String.prototype.trim` on a char list (ASCII whitespace). -/
def jsTrimList (cs : List Char) : List Char :=
  ((cs.dropWhile isJsWS).reverse.dropWhile isJsWS).reverse

/-- JS `String.prototype.trim`. -/
def jsTrim (s : String) : String := ⟨jsTrimList s.data⟩

/-- `cleanText` from `src/api/_license-utils.js`:
`String(value || '').replace(/\s+/g, ' ').trim().slice(0, maxLen)`. -/
def cleanText (value : String) (maxLen : Nat) : String :=
  ⟨(jsTrimList (collapseWS value.data)).take maxLen⟩

/-- JS `toLowerCase` (ASCII). -/
def jsLower (s : String) : String := ⟨s.data.map Char.toLower⟩

/-- JS `toUpperCase` (ASCII). -/
def jsUpper (s : String) : String := ⟨s.data.map Char.toUpper⟩

/-- JS `String.prototype.endsWith` (kernel-reducible list form). -/
def jsEndsWith (s suffix : String) : Bool := suffix.data.isSuffixOf s.data

/-- JS `s.slice(0, n)`. -/
def jsSliceTo (s : String) (n : Nat) : String := ⟨s.data.take n⟩

/-- JS `s.slice(-n)` (last `n` characters; `s` itself when shorter). -/
def jsSliceLast (s : String) (n : Nat) : String := ⟨s.data.drop (s.data.length - n)⟩

/-- JS `s.split(c)` for a one-character separator (no limit). -/
def jsSplitCharAux (sep : Char) : List Char → List Char → List String
  | acc, [] => [⟨acc.reverse⟩]
  | acc, c :: rest =>
    if c = sep then ⟨acc.reverse⟩ :: jsSplitCharAux sep [] rest
    else jsSplitCharAux sep (c :: acc) rest

def jsSplitChar (sep : Char) (s : String) : List String :=
  jsSplitCharAux sep [] s.data

/-- JS `Number.parseInt(s, 10)`: skip leading whitespace, optional sign,
then a non-empty digit prefix; `none` models NaN. -/
def jsParseInt (s : String) : Option Int :=
  let cs := s.data.dropWhile isJsWS
  let (neg, cs) :=
    match cs with
    | '-' :: rest => (true, rest)
    | '+' :: rest => (false, rest)
    | _ => (false, cs)
  let ds := cs.takeWhile Char.isDigit
  if ds.isEmpty then none
  else
    let n : Nat := digitsToNat ds
    some (if neg then -(n : Int) else (n : Int))

/-- `parseNumeric` from the updates utilities:
`Number.parseInt(String(value || ''), 10)` with negative / NaN mapped to the
fallback (`0` at every call site). -/
def parseNumeric (value : String) (fallback : Nat) : Nat :=
  match jsParseInt value with
  | none => fallback
  | some v => if v < 0 then fallback else v.toNat

/-! ## License utilities (`src/api/_license-utils.js`) -/

def normalizeEmail (value : String) : String := jsLower (cleanText value 320)

def normalizeLicenseKey (value : String) : String := jsUpper (cleanText value 64)

def normalizeHardwareId (value : String) : String := jsLower (cleanText value 128)

/-- Uppercase hex digit, as in the license pattern character class `[A-F0-9]`. -/
def isHexUpper (c : Char) : Bool := c.isDigit || ('A' ≤ c && c ≤ 'F')

/-- Four uppercase hex characters followed by the given tail. -/
def hexGroup4 (cs : List Char) : Option (List Char) :=
  match cs with
  | a :: b :: c :: d :: rest =>
    if isHexUpper a && isHexUpper b && isHexUpper c && isHexUpper d then some rest else none
  | _ => none

/-- `LICENSE_PATTERN = /^NEXUS-[A-F0-9]{4}-[A-F0-9]{4}-[A-F0-9]{4}-[A-F0-9]{4}$/`. -/
def licensePatternTest (s : String) : Bool :=
  match s.data with
  | 'N' :: 'E' :: 'X' :: 'U' :: 'S' :: '-' :: rest =>
    match hexGroup4 rest with
    | some ('-' :: r2) =>
      match hexGroup4 r2 with
      | some ('-' :: r3) =>
        match hexGroup4 r3 with
        | some ('-' :: r4) =>
          match hexGroup4 r4 with
          | some [] => true
          | _ => false
        | _ => false
      | _ => false
    | _ => false
  | _ => false

/-- `maskHardwareId`: ids of length ≤ 10 are returned whole, longer ids as
first 6 characters, `"..."`, last 4 characters. -/
def maskHardwareId (value : String) : String :=
  let hardwareId := normalizeHardwareId value
  if hardwareId = "" then ""
  else if hardwareId.data.length ≤ 10 then hardwareId
  else jsSliceTo hardwareId 6 ++ "..." ++ jsSliceLast hardwareId 4

/-- `mapPlanToTier`. -/
def mapPlanToTier (plan : String) : String :=
  let normalized := jsLower (cleanText plan 32)
  if normalized = "subscription" then "pro"
  else if normalized = "basic" || normalized = "pro" || normalized = "unlimited" then normalized
  else "unlimited"

/-- The Stripe customer `metadata` fields touched by the license core; every
other metadata entry is carried opaquely in `other` so that frame properties
can be stated. Missing fields are modelled as `""` (the code reads them with
`|| ''` fallbacks). -/
structure Metadata where
  license_key : String
  plan : String
  license_revoked : String
  license_hardware_id : String
  license_hardware_bound_at : String
  license_last_validation_at : String
  license_last_app_version : String
  license_created : String
  other : List (String × String)
  deriving Repr, DecidableEq

structure Customer where
  id : String
  email : String
  metadata : Metadata
  deriving Repr, DecidableEq

/-- `findCustomerByLicenseKey`: normalize, reject non-pattern keys, then scan
the customer listing in order for `metadata.license_key === key`. -/
def findCustomerByLicenseKey (store : List Customer) (rawKey : String) : Option Customer :=
  let key := normalizeLicenseKey rawKey
  if key = "" || !licensePatternTest key then none
  else store.find? (fun c => c.metadata.license_key = key)

/-- Outcome of `validateLicenseRecord`, one constructor per return site. -/
inductive VOut where
  /-- 400 `Invalid license key format` -/
  | invalidFormat
  /-- 400 `Hardware ID is required for activation` -/
  | missingHardware
  /-- 404 `License key not found` -/
  | notFound
  /-- 403 `License has been revoked` -/
  | revoked
  /-- 403 `Subscription is no longer active` -/
  | subInactive
  /-- 409 `machine_mismatch` carrying `hardware_id_masked` -/
  | machineMismatch (masked : String)
  /-- 200 success body: plan, tier, email, activated, expires_at
  (`none` models JSON `null`), machine_locked, hardware_id_masked -/
  | success (plan tier email activated : String) (expiresAt : Option String)
      (machineLocked : Bool) (masked : String)
  deriving Repr, DecidableEq

def VOut.status : VOut → Nat
  | .invalidFormat => 400
  | .missingHardware => 400
  | .notFound => 404
  | .revoked => 403
  | .subInactive => 403
  | .machineMismatch _ => 409
  | .success _ _ _ _ _ _ _ => 200

/-- `validateLicenseRecord` with its effects made explicit. `store` is the
Stripe customer listing scanned by the key lookup, `subActive` the result of
`hasActiveSubscription` per customer id, `now` the `new Date().toISOString()`
value. The second component is the `stripe.customers.update` write: the
customer id and the full replacement metadata, or `none` when no write is
performed. -/
def validateLicenseRecord (store : List Customer) (subActive : String → Bool)
    (now : String) (key hardwareId appVersion : String) (bindHardware : Bool) :
    VOut × Option (String × Metadata) :=
  let normalizedKey := normalizeLicenseKey key
  let normalizedHardware := normalizeHardwareId hardwareId
  let normalizedVersion := cleanText appVersion 64
  if normalizedKey = "" || !licensePatternTest normalizedKey then
    (.invalidFormat, none)
  else if bindHardware && normalizedHardware = "" then
    (.missingHardware, none)
  else
    match findCustomerByLicenseKey store normalizedKey with
    | none => (.notFound, none)
    | some customer =>
      let metadata := customer.metadata
      if metadata.license_revoked = "true" then (.revoked, none)
      else
        let plan := if metadata.plan = "" then "lifetime" else metadata.plan
        if jsLower plan = "subscription" && !subActive customer.id then
          (.subInactive, none)
        else
          let existingHardwareId := normalizeHardwareId metadata.license_hardware_id
          let tier := mapPlanToTier plan
          let success := fun (effectiveHardware : String)
              (write : Option (String × Metadata)) =>
            (VOut.success plan tier customer.email metadata.license_created
              (if tier = "unlimited" then none else some "")
              (!(effectiveHardware = "" && existingHardwareId = ""))
              (maskHardwareId
                (if effectiveHardware = "" then existingHardwareId else effectiveHardware)),
             write)
          if bindHardware && normalizedHardware ≠ "" then
            if existingHardwareId ≠ "" && existingHardwareId ≠ normalizedHardware then
              (.machineMismatch (maskHardwareId existingHardwareId), none)
            else
              let updatedMetadata : Metadata :=
                { metadata with
                  license_last_validation_at := now
                  license_last_app_version :=
                    if normalizedVersion ≠ "" then normalizedVersion
                    else metadata.license_last_app_version
                  license_hardware_id :=
                    if existingHardwareId = "" then normalizedHardware
                    else metadata.license_hardware_id
                  license_hardware_bound_at :=
                    if existingHardwareId = "" then now
                    else metadata.license_hardware_bound_at }
              let effectiveHardware :=
                if existingHardwareId = "" then normalizedHardware else existingHardwareId
              success effectiveHardware (some (customer.id, updatedMetadata))
          else
            success existingHardwareId none

/-- One validation request against a single-customer record store. -/
structure VInput where
  key : String
  hardwareId : String
  appVersion : String
  bindHardware : Bool
  now : String
  deriving Repr, DecidableEq

/-- State transition of the license record: apply the metadata write (if any)
produced by one `validateLicenseRecord` call against the singleton store
holding this customer. -/
def stepCustomer (subActive : String → Bool) (c : Customer) (i : VInput) : Customer :=
  match (validateLicenseRecord [c] subActive i.now i.key i.hardwareId
      i.appVersion i.bindHardware).2 with
  | some (_, m) => { c with metadata := m }
  | none => c

/-- Iterated validation requests. -/
def runCustomer (subActive : String → Bool) (c : Customer) (is : List VInput) : Customer :=
  is.foldl (stepCustomer subActive) c

/-! ## Channel / platform / arch normalization (`src/api/_updates-utils.js`) -/

def normalizeChannel (value : String) : String :=
  let channel := jsLower (cleanText value 16)
  if channel = "stable" || channel = "beta" then channel else "stable"

def normalizePlatform (value : String) : String :=
  let platform := jsLower (cleanText value 16)
  if platform = "mac" || platform = "win" || platform = "linux" then platform else ""

def normalizeArch (value : String) : String :=
  let arch := jsLower (cleanText value 16)
  if arch = "x64" || arch = "arm64" then arch else ""

/-! ## Signed download tokens (`signToken` / `verifyToken`) -/

/-- The token payload minted by the feed handler (`download.js`): the scoping
tuple plus expiry, and the GitHub coordinates when sourced from the release
host (absent fields modelled as `""` / `0`). -/
structure TokenPayload where
  source : String
  channel : String
  platform : String
  arch : String
  artifact : String
  exp : Int
  owner : String
  repo : String
  assetId : Int
  assetName : String
  releaseTag : String
  deriving Repr, DecidableEq

/-- Platform library functions used by the token scheme and the handlers,
passed in rather than embedded: Node `crypto` HMAC-SHA256 (already base64url
encoded, as produced by the source's digest/replace chain), `JSON.stringify`
/ `JSON.parse` for the payload object, the base64url codec over `Buffer`,
and `decodeURIComponent`. -/
structure JsLib where
  hmacB64url : String → String → String
  jsonEncode : TokenPayload → String
  jsonDecode : String → Option TokenPayload
  b64urlEncode : String → String
  b64urlDecode : String → String
  uriDecode : String → String
  uriEncode : String → String

/-- `signToken(payload, secret)`. -/
def signToken (js : JsLib) (payload : TokenPayload) (secret : String) : String :=
  let body := js.b64urlEncode (js.jsonEncode payload)
  body ++ "." ++ js.hmacB64url secret body

/-- `verifyToken(token, secret)`; `now` is `Date.now()`. `timingSafeEqual`
is modelled as equality (the source first rejects on length mismatch), a
`JSON.parse` failure or non-object result as `jsonDecode = none`, and the
falsy-`exp` check as `exp = 0`. -/
def verifyToken (js : JsLib) (now : Int) (token secret : String) : Option TokenPayload :=
  let parts := jsSplitChar '.' token
  let body := parts.headD ""
  let signature := (parts.drop 1).headD ""
  if body = "" || signature = "" then none
  else
    let expected := js.hmacB64url secret body
    if expected.data.length ≠ signature.data.length then none
    else if expected ≠ signature then none
    else
      match js.jsonDecode (js.b64urlDecode body) with
      | none => none
      | some payload =>
        if payload.exp = 0 || now > payload.exp then none
        else some payload

/-! ## Download handler (`src/api/updates-download.js`, post-auth core) -/

/-- Resolved artifact description (`UpdateConfig`). One structure covers both
provenances; fields a provenance does not set are `""` / `0`. -/
structure UpdateConfig where
  source : String
  channel : String
  platform : String
  arch : String
  version : String
  fileUrl : String
  sha512 : String
  size : Nat
  releaseDate : String
  releaseNotes : String
  fileName : String
  owner : String
  repo : String
  releaseTag : String
  binaryAssetId : Nat
  binaryAssetName : String
  deriving Repr, DecidableEq

/-- Outcome of `getGitHubAssetRedirect` (a network call, passed as an
oracle): a redirect location, a streamed body, or a thrown error. -/
inductive GhFetch where
  | redirectUrl (url : String)
  | stream (contentType disposition : String) (len : Nat)
  | fetchError (msg : String)
  deriving Repr, DecidableEq

/-- Query parameters of the download endpoint. -/
structure DlQuery where
  channel : String
  platform : String
  arch : String
  artifact : String
  t : String
  deriving Repr, DecidableEq

/-- Responses of the download handler, one constructor per return site. -/
inductive DlResponse where
  /-- 400 `Invalid download request` -/
  | badRequest
  /-- 401 `Invalid or expired download token` -/
  | tokenInvalid
  /-- 401 `Download token scope mismatch` -/
  | scopeMismatch
  /-- 400 `Invalid GitHub asset token payload` -/
  | ghBadAsset
  /-- 302 redirect -/
  | redirect (url : String)
  /-- 200 streamed body with mirrored headers -/
  | streamed (contentType disposition : String) (len : Nat)
  /-- 404 `Update artifact not configured` -/
  | artifactNotConfigured
  /-- 500 (thrown error caught by the outer handler) -/
  | serverError
  deriving Repr, DecidableEq

/-- The handler of `updates-download.js` after the license check has
succeeded (`handleUpdaterFile` in `download.js` is the identical logic).
`secret` is the trimmed `getUpdateSecret()` value (`""` = unconfigured,
which throws and is caught as a 500); `resolve` stands for the env-path
`getUpdateConfig` call and `ghRedirect` for `getGitHubAssetRedirect`. -/
def updatesDownloadCore (js : JsLib) (secret : String) (now : Int)
    (resolve : String → String → String → Option UpdateConfig)
    (ghRedirect : String → String → Int → GhFetch) (q : DlQuery) : DlResponse :=
  let channel := normalizeChannel q.channel
  let platform := normalizePlatform q.platform
  let arch := normalizeArch q.arch
  let artifact := cleanText (js.uriDecode q.artifact) 200
  let token := cleanText q.t 800
  if platform = "" || arch = "" || artifact = "" || token = "" then .badRequest
  else if secret = "" then .serverError
  else
    match verifyToken js now token secret with
    | none => .tokenInvalid
    | some payload =>
      if payload.channel ≠ channel || payload.platform ≠ platform ||
          payload.arch ≠ arch || payload.artifact ≠ artifact then .scopeMismatch
      else if payload.source = "github" then
        if payload.assetId ≤ 0 then .ghBadAsset
        else
          match ghRedirect payload.owner payload.repo payload.assetId with
          | .redirectUrl url => .redirect url
          | .stream contentType disposition len =>
            .streamed
              (if contentType = "" then "application/octet-stream" else contentType)
              (if disposition = "" then "attachment; filename=\"" ++ artifact ++ "\""
               else disposition)
              len
          | .fetchError _ => .serverError
      else
        match resolve channel platform arch with
        | none => .artifactNotConfigured
        | some updateConfig =>
          if updateConfig.fileName ≠ artifact || updateConfig.fileUrl = "" then
            .artifactNotConfigured
          else .redirect updateConfig.fileUrl

/-! ## Feed handler (`src/api/download.js` `handleUpdaterFeed`, post-auth core) -/

/-- `yamlEscape`. -/
def yamlEscape (value : String) : String :=
  ⟨value.data.foldr (fun c acc => if c = '"' then '\\' :: '"' :: acc else c :: acc) []⟩

/-- `buildManifestYml`. -/
def buildManifestYml (version releaseDate sha512 : String) (size : Nat)
    (fileUrl releaseNotes : String) : String :=
  let notes := cleanText releaseNotes 2000
  let notesLine := if notes ≠ "" then "\nreleaseNotes: \"" ++ yamlEscape notes ++ "\"" else ""
  String.intercalate "\n"
    ["version: " ++ version,
     "releaseDate: \"" ++ releaseDate ++ "\"",
     "files:",
     "  - url: \"" ++ fileUrl ++ "\"",
     "    sha512: \"" ++ sha512 ++ "\"",
     "    size: " ++ toString size,
     "path: \"" ++ fileUrl ++ "\"",
     "sha512: \"" ++ sha512 ++ "\"" ++ notesLine,
     ""]

structure FeedQuery where
  channel : String
  platform : String
  arch : String
  manifest : String
  debug : String
  deriving Repr, DecidableEq

inductive FeedResponse where
  /-- 400 `Invalid updater platform/arch request` -/
  | badRequest
  /-- 404 `Manifest not found` (hint without `.yml` suffix) -/
  | manifestNotFound
  /-- 404 `No update configured for channel/platform/arch` -/
  | noUpdate
  /-- 200 JSON debug summary -/
  | debugInfo (source version releaseDate fileName releaseTag : String)
  /-- 200 `text/yaml` manifest body -/
  | okManifest (yml : String)
  /-- 500 (thrown error caught by the outer handler) -/
  | serverError
  deriving Repr, DecidableEq

/-- `handleUpdaterFeed` after the license check has succeeded. `resolve`
stands for `getUpdateConfig`, `origin` for `getRequestOrigin`, `now` for
`Date.now()`; the signed download URL and manifest body are built exactly as
in the source. -/
def handleUpdaterFeedCore (js : JsLib) (secret origin : String) (now : Int)
    (resolve : String → String → String → Option UpdateConfig)
    (q : FeedQuery) : FeedResponse :=
  let channel := normalizeChannel q.channel
  let platform := normalizePlatform q.platform
  let arch := normalizeArch q.arch
  let manifest := jsLower (cleanText q.manifest 64)
  let debugRequested := cleanText q.debug 8 = "1"
  if platform = "" || arch = "" then .badRequest
  else if manifest ≠ "" && !jsEndsWith manifest ".yml" then .manifestNotFound
  else
    match resolve channel platform arch with
    | none => .noUpdate
    | some updateConfig =>
      if debugRequested then
        .debugInfo (if updateConfig.source = "" then "unknown" else updateConfig.source)
          updateConfig.version updateConfig.releaseDate updateConfig.fileName
          updateConfig.releaseTag
      else if secret = "" then .serverError
      else
        let ttlMs : Int := 2 * 60 * 60 * 1000
        let payload : TokenPayload :=
          { source := if updateConfig.source = "" then "env" else updateConfig.source
            channel := channel, platform := platform, arch := arch
            artifact := updateConfig.fileName, exp := now + ttlMs
            owner := if updateConfig.source = "github" then updateConfig.owner else ""
            repo := if updateConfig.source = "github" then updateConfig.repo else ""
            assetId := if updateConfig.source = "github" then updateConfig.binaryAssetId else 0
            assetName :=
              if updateConfig.source = "github" then
                if updateConfig.binaryAssetName = "" then updateConfig.fileName
                else updateConfig.binaryAssetName
              else ""
            releaseTag := if updateConfig.source = "github" then updateConfig.releaseTag else "" }
        let token := signToken js payload secret
        let downloadUrl := origin ++ "/api/download?mode=file&channel=" ++
          js.uriEncode channel ++ "&platform=" ++ js.uriEncode platform ++
          "&arch=" ++ js.uriEncode arch ++ "&artifact=" ++
          js.uriEncode updateConfig.fileName ++ "&t=" ++ js.uriEncode token
        .okManifest (buildManifestYml updateConfig.version updateConfig.releaseDate
          updateConfig.sha512 updateConfig.size downloadUrl updateConfig.releaseNotes)

/-! ## Release resolver (`src/unnamed/part_000`, the current updates utilities) -/

/-- `normalizeManifestName`: lowercase, length-cap, basename, require a
`.yml` suffix. -/
def normalizeManifestName (value : String) : String :=
  let raw := jsLower (cleanText value 200)
  if raw = "" then ""
  else
    let base :=
      match ((jsSplitChar '/' raw).filter (fun p => p ≠ "")).getLast? with
      | some b => b
      | none => raw
    if jsEndsWith base ".yml" then base else ""

/-- `getArtifactEnv`: read `UPDATE_<CH>_<PLAT>_<ARCH>_<suffix>` with an
arch-less fallback key; `env` maps a variable name to its value (`""` for
unset). -/
def getArtifactEnv (env : String → String) (channel platform arch suffix : String) : String :=
  let keyWithArch :=
    "UPDATE_" ++ jsUpper channel ++ "_" ++ jsUpper platform ++ "_" ++ jsUpper arch ++ "_" ++ suffix
  let keyWithoutArch := "UPDATE_" ++ jsUpper channel ++ "_" ++ jsUpper platform ++ "_" ++ suffix
  jsTrim (if env keyWithArch ≠ "" then env keyWithArch else env keyWithoutArch)

/-- JS `parts.filter(Boolean)` last element, as used by `getFileNameFromUrl`. -/
def lastPathSegment (s : String) : String :=
  (((jsSplitChar '/' s).filter (fun p => p ≠ "")).getLast?).getD ""

/-- Pathname of `new URL(url)`, modelled for `scheme://authority/path?query#fragment`
shapes; a string without a `<letters>://` head is treated as a parse failure
(the `catch` branch of `getFileNameFromUrl`). -/
def parseUrlPathname (url : String) : Option String :=
  let cs := url.data
  let scheme := cs.takeWhile Char.isAlpha
  if scheme.isEmpty then none
  else if ("://".data).isPrefixOf (cs.drop scheme.length) then
    let rest := cs.drop (scheme.length + 3)
    let afterHost := rest.dropWhile (fun c => c ≠ '/' && c ≠ '?' && c ≠ '#')
    let pathname :=
      if afterHost.head? = some '/' then afterHost.takeWhile (fun c => c ≠ '?' && c ≠ '#')
      else []
    some ⟨pathname⟩
  else none

/-- `getFileNameFromUrl`. -/
def getFileNameFromUrl (url : String) : String :=
  match parseUrlPathname url with
  | some pathname => lastPathSegment pathname
  | none => lastPathSegment ((jsSplitChar '?' url).headD "")

/-- `getEnvUpdateConfig` (`debug` reporting omitted — it only annotates the
debug payload). `nowIso` is the `new Date().toISOString()` fallback stamped
when no `RELEASE_DATE` variable is configured. -/
def getEnvUpdateConfig (env : String → String) (nowIso : String)
    (channel platform arch : String) : Option UpdateConfig :=
  let nc := normalizeChannel channel
  let np := normalizePlatform platform
  let na := normalizeArch arch
  if np = "" || na = "" then none
  else
    let version := getArtifactEnv env nc np na "VERSION"
    let fileUrl := getArtifactEnv env nc np na "FILE_URL"
    let sha512 := getArtifactEnv env nc np na "SHA512"
    let size := parseNumeric (getArtifactEnv env nc np na "SIZE") 0
    let releaseDateRaw := getArtifactEnv env nc np na "RELEASE_DATE"
    let releaseNotes := getArtifactEnv env nc np na "RELEASE_NOTES"
    let fileNameEnv := getArtifactEnv env nc np na "FILE_NAME"
    if version = "" || fileUrl = "" || sha512 = "" || size = 0 then none
    else
      let releaseDate := if releaseDateRaw ≠ "" then releaseDateRaw else nowIso
      let fileName := if fileNameEnv ≠ "" then fileNameEnv else getFileNameFromUrl fileUrl
      if fileName = "" then none
      else some
        { source := "env", channel := nc, platform := np, arch := na
          version := version, fileUrl := fileUrl, sha512 := sha512, size := size
          releaseDate := releaseDate, releaseNotes := releaseNotes, fileName := fileName
          owner := "", repo := "", releaseTag := "", binaryAssetId := 0, binaryAssetName := "" }

/-- `getUpdatesSourceMode` in `src/unnamed/part_000`:
`cleanText(process.env.UPDATE_SOURCE || 'github', 16).toLowerCase()`,
then `env`/`github` pass through and everything else becomes `auto`. -/
def getUpdatesSourceMode (env : String → String) : String :=
  let mode :=
    jsLower (cleanText (if env "UPDATE_SOURCE" ≠ "" then env "UPDATE_SOURCE" else "github") 16)
  if mode = "env" || mode = "github" then mode else "auto"

/-- A release asset as listed by the release host (id `0` models a missing
numeric id, which is falsy in the source's dedup key). -/
structure GhAsset where
  id : Nat
  name : String
  deriving Repr, DecidableEq

structure GhRelease where
  tag_name : String
  draft : Bool
  prerelease : Bool
  published_at : String
  body : String
  assets : List GhAsset
  deriving Repr, DecidableEq

/-- `listReleasesForChannel`: drop drafts, then preferred partition
(pre-releases for `beta`, stable otherwise) ahead of the fallback partition,
preserving relative order. -/
def listReleasesForChannel (releases : List GhRelease) (channel : String) : List GhRelease :=
  let visible := releases.filter (fun r => !r.draft)
  if visible.isEmpty then []
  else
    let preferred := fun (r : GhRelease) => if channel = "beta" then r.prerelease else !r.prerelease
    visible.filter preferred ++ visible.filter (fun r => !preferred r)

/-- `firstAssetByNames`: the source builds a `Map` keyed by lowercased asset
name (later entries overwrite earlier ones) and probes the candidate names in
order, so the result is the last listed asset bearing the first matching
candidate name. -/
def firstAssetByNames (assets : List GhAsset) (candidateNames : List String) : Option GhAsset :=
  candidateNames.findSome? (fun candidate =>
    assets.reverse.find? (fun a => jsLower a.name = jsLower candidate))

/-- Accumulator of `listManifestAssets`: the `seen` dedup keys and the
`ordered` output list. -/
structure PushState where
  seen : List String
  ordered : List GhAsset
  deriving Repr, DecidableEq

/-- `pushAsset`. -/
def pushAsset (st : PushState) (a? : Option GhAsset) : PushState :=
  match a? with
  | none => st
  | some a =>
    let key := if a.id ≠ 0 then toString a.id else a.name
    if key = "" || st.seen.contains key then st
    else ⟨key :: st.seen, st.ordered ++ [a]⟩

/-- `pushByNames` over the filtered manifest list (the source's `for name of
names` loop, written recursively). -/
def pushByNames (manifests : List GhAsset) : List String → PushState → PushState
  | [], st => st
  | n :: ns, st => pushByNames manifests ns (pushAsset st (firstAssetByNames manifests [n]))

/-- `pushByRegex`. -/
def pushByRegex (manifests : List GhAsset) (rgx : String → Bool) (st : PushState) : PushState :=
  manifests.foldl (fun st a => if rgx a.name then pushAsset st (some a) else st) st

/-- JS `String.prototype.includes` (substring occurrence) on char lists. -/
def listHasInfix (pat cs : List Char) : Bool :=
  cs.tails.any (fun suf => pat.isPrefixOf suf)

/-- Existence of ordered, non-overlapping occurrences of one token from each
group (the `(a|b).*` chains of the manifest regexes). -/
def tokenSeqMatches (groups : List (List String)) (cs : List Char) : Bool :=
  match groups with
  | [] => true
  | g :: gs =>
    cs.tails.any (fun suf =>
      g.any (fun t => t.data.isPrefixOf suf && tokenSeqMatches gs (suf.drop t.data.length)))

/-- A case-insensitive `/(g1).*(g2)...*\.yml$/` test (unanchored start). -/
def regexTokensYml (groups : List (List String)) (name : String) : Bool :=
  let l := (jsLower name).data
  (".yml".data).isSuffixOf l && tokenSeqMatches groups (l.take (l.length - 4))

/-- `/(beta|latest).*mac.*(arm64|universal).*\.yml$/i`. -/
def macArmRegex (name : String) : Bool :=
  regexTokensYml [["beta", "latest"], ["mac"], ["arm64", "universal"]] name

/-- `/(beta|latest).*mac.*x64.*\.yml$/i`. -/
def macX64Regex (name : String) : Bool :=
  regexTokensYml [["beta", "latest"], ["mac"], ["x64"]] name

/-- `/(beta|latest).*mac.*\.yml$/i`. -/
def macAnyRegex (name : String) : Bool :=
  regexTokensYml [["beta", "latest"], ["mac"]] name

/-- `/(beta|latest).*linux.*\.yml$/i`. -/
def linuxAnyRegex (name : String) : Bool :=
  regexTokensYml [["beta", "latest"], ["linux"]] name

/-- `/^(beta|latest)(?!.*(mac|linux)).*\.yml$/i`. -/
def winLatestRegex (name : String) : Bool :=
  let l := (jsLower name).data
  let check := fun (pre : String) =>
    pre.data.isPrefixOf l &&
      (let rest := l.drop pre.data.length
       !listHasInfix "mac".data rest && !listHasInfix "linux".data rest &&
       (".yml".data).isSuffixOf rest)
  check "beta" || check "latest"

/-- The alias list assembled by `pushRequestedAliases` for an explicit
manifest hint. -/
def requestedAliases (requested platform arch channel : String) : List String :=
  requested ::
    (if platform = "mac" then
      if requested = "beta-mac.yml" then
        if arch = "arm64" then ["beta-mac-arm64.yml", "latest-mac-arm64.yml", "latest-mac.yml"]
        else ["beta-mac-x64.yml", "latest-mac-x64.yml", "latest-mac.yml"]
      else if requested = "latest-mac.yml" then
        if arch = "arm64" then ["latest-mac-arm64.yml", "beta-mac-arm64.yml", "beta-mac.yml"]
        else ["latest-mac-x64.yml", "beta-mac-x64.yml", "beta-mac.yml"]
      else if requested = "latest-mac-beta.yml" then
        if arch = "arm64" then ["latest-mac-arm64-beta.yml", "beta-mac-arm64.yml", "beta-mac.yml"]
        else ["latest-mac-x64-beta.yml", "beta-mac-x64.yml", "beta-mac.yml"]
      else []
    else if platform = "linux" then
      (if requested = "latest-linux.yml" then
        ["latest-linux-" ++ arch ++ ".yml", "beta-linux-" ++ arch ++ ".yml"] else []) ++
      (if requested = "beta-linux.yml" then
        ["beta-linux-" ++ arch ++ ".yml", "latest-linux-" ++ arch ++ ".yml"] else [])
    else if platform = "win" then
      (if requested = "beta.yml" then ["latest.yml"] else []) ++
      (if requested = "latest.yml" && channel = "beta" then ["beta.yml"] else [])
    else [])

/-- `listManifestAssets`: rank a release's `.yml` assets for
(channel, platform, arch), pinned to the hint's aliases when a manifest name
was requested. -/
def listManifestAssets (assets : List GhAsset)
    (channel platform arch requestedManifest : String) : List GhAsset :=
  let manifests := assets.filter (fun a => jsEndsWith (jsLower a.name) ".yml")
  let requested := normalizeManifestName requestedManifest
  let st0 : PushState := ⟨[], []⟩
  if requested ≠ "" then
    (pushByNames manifests (requestedAliases requested platform arch channel) st0).ordered
  else
    let st1 :=
      if platform = "mac" then
        let stArch :=
          if arch = "arm64" then
            pushByRegex manifests macArmRegex (pushByNames manifests
              ["beta-mac-arm64.yml", "beta-mac.yml", "latest-mac-arm64.yml",
               "latest-mac-arm64-beta.yml", "latest-mac-beta-arm64.yml",
               "latest-mac-universal.yml", "latest-mac-universal-beta.yml"] st0)
          else
            pushByRegex manifests macX64Regex (pushByNames manifests
              ["beta-mac-x64.yml", "beta-mac.yml", "latest-mac-x64.yml",
               "latest-mac.yml", "latest-mac-beta.yml"] st0)
        pushByRegex manifests macAnyRegex
          (pushByNames manifests ["beta-mac.yml", "latest-mac-beta.yml", "latest-mac.yml"] stArch)
      else if platform = "linux" then
        pushByRegex manifests linuxAnyRegex (pushByNames manifests
          ["beta-linux-" ++ arch ++ ".yml", "beta-linux.yml",
           "latest-linux-" ++ arch ++ ".yml", "latest-linux.yml", "latest.yml"] st0)
      else
        pushByRegex manifests winLatestRegex (pushByNames manifests ["latest.yml"]
          (if channel = "beta" then pushByNames manifests ["beta.yml", "latest-beta.yml"] st0
           else st0))
    (manifests.foldl (fun st a => pushAsset st (some a)) st1).ordered

/-- `isArtifactCompatible`. -/
def isArtifactCompatible (fileName platform arch : String) : Bool :=
  let name := jsLower fileName
  if name = "" then false
  else
    let nd := name.data
    let isMacLike := listHasInfix "mac".data nd || listHasInfix "darwin".data nd ||
      jsEndsWith name ".dmg"
    let isLinuxLike := listHasInfix "linux".data nd || jsEndsWith name ".appimage" ||
      jsEndsWith name ".deb"
    let isWinLike := listHasInfix "win".data nd || listHasInfix "windows".data nd ||
      jsEndsWith name ".exe" || listHasInfix "nsis".data nd
    if platform = "mac" && !isMacLike then false
    else if platform = "linux" && !isLinuxLike then false
    else if platform = "win" && (!isWinLike || isMacLike || isLinuxLike) then false
    else
      let hasArm := listHasInfix "arm64".data nd || listHasInfix "aarch64".data nd
      let hasX64 := listHasInfix "x64".data nd || listHasInfix "amd64".data nd
      let hasUniversal := listHasInfix "universal".data nd
      if arch = "arm64" then !(hasX64 && !hasUniversal)
      else if arch = "x64" then !(hasArm && !hasUniversal)
      else true

/-- `parseLooseSemver` result: cleaned raw text, exactly three numeric core
components (zero-padded / truncated), pre-release suffix. -/
structure LooseSemver where
  raw : String
  core : List Int
  prerelease : String
  deriving Repr, DecidableEq

/-- `parseLooseSemver`. `raw.split('-', 2)` keeps only the first two
segments, so the pre-release suffix is the text between the first and second
dash. Non-numeric core components are filtered out (`Number.isFinite`). -/
def parseLooseSemver (version : String) : Option LooseSemver :=
  let raw := cleanText version 80
  if raw = "" then none
  else
    let parts := jsSplitChar '-' raw
    let core := parts.headD ""
    let prerelease := (parts.drop 1).headD ""
    let segments := (jsSplitChar '.' core).filterMap jsParseInt
    if segments.isEmpty then none
    else some ⟨raw, (segments ++ [0, 0, 0]).take 3, prerelease⟩

/-- Sign-valued string comparison standing in for
`String.prototype.localeCompare` (modelled as code-point lexicographic
order, which agrees with the locale order on the ASCII suffixes involved). -/
def jsLocaleCompare (a b : String) : Int :=
  match compare a b with
  | .lt => -1
  | .eq => 0
  | .gt => 1

/-- Sign-valued comparison of one core component pair. -/
def cmpIntSign (x y : Int) : Int := if x > y then 1 else if x < y then -1 else 0

/-- `compareLooseSemver`. -/
def compareLooseSemver (a b : String) : Int :=
  match parseLooseSemver a, parseLooseSemver b with
  | none, none => 0
  | none, some _ => -1
  | some _, none => 1
  | some pa, some pb =>
    let c0 := cmpIntSign (pa.core.getD 0 0) (pb.core.getD 0 0)
    let c1 := cmpIntSign (pa.core.getD 1 0) (pb.core.getD 1 0)
    let c2 := cmpIntSign (pa.core.getD 2 0) (pb.core.getD 2 0)
    if c0 ≠ 0 then c0
    else if c1 ≠ 0 then c1
    else if c2 ≠ 0 then c2
    else if pa.prerelease = "" && pb.prerelease ≠ "" then 1
    else if pa.prerelease ≠ "" && pb.prerelease = "" then -1
    else if pa.prerelease ≠ "" && pb.prerelease ≠ "" then
      jsLocaleCompare pa.prerelease pb.prerelease
    else 0

/-! ### Manifest parsing (`parseManifestYml`)

The source extracts fields with independent multiline regexes of the shape
`/^\s*key:\s*"?([^\n"]+)"?\s*$/m`. The helpers below realize that grammar
line by line. A capture consisting only of whitespace is treated as a failed
match; the source would capture it but every consumer feeds the capture
through `cleanText`, which erases the difference. -/

/-- Quote character class `['"]` of the releaseDate edge-strip. -/
def isQuoteChar (c : Char) : Bool := c.toNat = 39 || c = '"'

/-- `replace(/^['"]+|['"]+$/g, '')`. -/
def stripEdgeQuotes (s : String) : String :=
  ⟨((s.data.dropWhile isQuoteChar).reverse.dropWhile isQuoteChar).reverse⟩

/-- Tail of a key-value line after the colon and following whitespace:
`"?([^\n"]+)"?\s*$`. -/
def matchQuotedTail (rest : List Char) : Option String :=
  let rest2 := if rest.head? = some '"' then rest.drop 1 else rest
  let body := rest2.takeWhile (fun c => c ≠ '"')
  if body.isEmpty then none
  else
    let u := rest2.drop body.length
    if u.isEmpty then some ⟨body⟩
    else if u.head? = some '"' && (u.drop 1).all isJsWS then some ⟨body⟩
    else none

/-- One line against `/^\s*key:\s*"?([^\n"]+)"?\s*$/`. -/
def lineKeyValue (key : String) (line : String) : Option String :=
  let cs := line.data.dropWhile isJsWS
  if ((key ++ ":").data).isPrefixOf cs then
    matchQuotedTail ((cs.drop (key.data.length + 1)).dropWhile isJsWS)
  else none

/-- One line against the `-\s*url:\s*"?([^\n"]+)"?\s*` head of the file
block, tried from every `-` position (the regex is unanchored). The `\s*`
runs are matched within the line; a block spread over extra blank lines is
not recognized (none of the manifests involved use one). -/
def dashUrlValue (line : String) : Option String :=
  line.data.tails.findSome? (fun suf =>
    match suf with
    | '-' :: rest =>
      let r := rest.dropWhile isJsWS
      if ("url:".data).isPrefixOf r then matchQuotedTail ((r.drop 4).dropWhile isJsWS)
      else none
    | _ => none)

/-- One line against `\s*size:\s*(\d+)` (rest of the line unconstrained). -/
def sizeLineNat (line : String) : Option Nat :=
  let cs := line.data.dropWhile isJsWS
  if ("size:".data).isPrefixOf cs then
    let r := (cs.drop 5).dropWhile isJsWS
    let ds := r.takeWhile Char.isDigit
    if ds.isEmpty then none
    else some (digitsToNat ds)
  else none

/-- First `- url:` / `sha512:` / `size:` three-line block
(`fileBlockMatch`). -/
def findFileBlock : List String → Option (String × String × Nat)
  | l1 :: l2 :: l3 :: rest =>
    (match dashUrlValue l1, lineKeyValue "sha512" l2, sizeLineNat l3 with
     | some u, some s, some n => some (u, s, n)
     | _, _, _ => findFileBlock (l2 :: l3 :: rest))
  | _ => none

/-- The cleaned, quote-stripped `releaseDate:` capture of a manifest body
(empty when the line is missing), before the current-time fallback. -/
def manifestReleaseDateRaw (ymlText : String) : String :=
  stripEdgeQuotes
    (cleanText (((jsSplitChar '\n' ymlText).findSome? (lineKeyValue "releaseDate")).getD "") 80)

/-- Parsed manifest fields. -/
structure ManifestInfo where
  version : String
  releaseDate : String
  fileUrl : String
  sha512 : String
  size : Nat
  releaseNotes : String
  fileName : String
  deriving Repr, DecidableEq

/-- `parseManifestYml` of `src/unnamed/part_000`. `nowIso` is the
`new Date().toISOString()` fallback stamped when the body carries no
`releaseDate:` line. -/
def parseManifestYml (nowIso : String) (ymlText : String) : Option ManifestInfo :=
  if ymlText = "" then none
  else
    let lines := jsSplitChar '\n' ymlText
    let versionCap := (lines.findSome? (lineKeyValue "version")).getD ""
    let pathCap := (lines.findSome? (lineKeyValue "path")).getD ""
    let notesCap := (lines.findSome? (lineKeyValue "releaseNotes")).getD ""
    let fb := findFileBlock lines
    let shaLast := (lines.filterMap (lineKeyValue "sha512")).getLast?
    let version := cleanText versionCap 80
    let releaseDate :=
      let raw := manifestReleaseDateRaw ymlText
      if raw ≠ "" then raw else nowIso
    let fileUrl := cleanText (match fb with | some (u, _, _) => u | none => pathCap) 400
    let sha512 := cleanText (match fb with | some (_, s, _) => s | none => shaLast.getD "") 3000
    let size := match fb with | some (_, _, n) => n | none => 0
    let releaseNotes := cleanText notesCap 2000
    let fileName := getFileNameFromUrl fileUrl
    if version = "" || fileUrl = "" || sha512 = "" || size = 0 || fileName = "" then none
    else some ⟨version, releaseDate, fileUrl, sha512, size, releaseNotes, fileName⟩

/-! ### GitHub resolution core -/

/-- Hex digit value for percent-decoding. -/
def hexVal (c : Char) : Option Nat :=
  let n := c.toNat
  if 48 ≤ n && n ≤ 57 then some (n - 48)
  else if 97 ≤ n && n ≤ 102 then some (n - 87)
  else if 65 ≤ n && n ≤ 70 then some (n - 55)
  else none

/-- `decodeURIComponent` for single-byte escapes; a malformed escape is left
in place (the `URIError` abort path is not exercised by the name lookups
verified here). -/
def percentDecodeList : List Char → List Char
  | [] => []
  | '%' :: h1 :: h2 :: rest =>
    (match hexVal h1, hexVal h2 with
     | some a, some b => Char.ofNat (a * 16 + b) :: percentDecodeList rest
     | _, _ => '%' :: percentDecodeList (h1 :: h2 :: rest))
  | c :: rest => c :: percentDecodeList rest

def jsDecodeURIComponent (s : String) : String := ⟨percentDecodeList s.data⟩

/-- `findAssetByName`: exact lowercased name match, then URL-decoded match. -/
def findAssetByName (assets : List GhAsset) (fileName : String) : Option GhAsset :=
  let normalized := jsLower fileName
  if normalized = "" then none
  else
    match assets.find? (fun a => jsLower a.name = normalized) with
    | some a => some a
    | none =>
      let decoded := jsDecodeURIComponent normalized
      assets.find? (fun a => jsLower a.name = decoded)

/-- The candidate scan of `getGitHubUpdateConfig`, with the network calls
supplied as oracles: `releases` is the (successfully fetched) release
listing, `fetchManifest` maps a manifest asset id to its downloaded body
(`none` for a failed fetch), `dateParse` is `Date.parse` (`none` for NaN),
`owner`/`repo` come from `getGitHubRepoConfig`. Debug reporting is omitted —
it only annotates the debug payload. -/
def getGitHubUpdateConfigCore (owner repo : String)
    (fetchManifest : Nat → Option String) (dateParse : String → Option Int)
    (nowIso : String) (releases : List GhRelease)
    (channel platform arch requestedManifest : String) : Option UpdateConfig :=
  let nc := normalizeChannel channel
  let np := normalizePlatform platform
  let na := normalizeArch arch
  let nm := normalizeManifestName requestedManifest
  if np = "" || na = "" then none
  else if owner = "" || repo = "" then none
  else
    let releaseCandidates := listReleasesForChannel releases nc
    if releaseCandidates.isEmpty then none
    else
      releaseCandidates.foldl (fun best release =>
        (listManifestAssets release.assets nc np na nm).foldl (fun best manifestAsset =>
          match fetchManifest manifestAsset.id with
          | none => best
          | some manifestText =>
            match parseManifestYml nowIso manifestText with
            | none => best
            | some parsed =>
              if !isArtifactCompatible parsed.fileName np na then best
              else
                match findAssetByName release.assets parsed.fileName with
                | none => best
                | some binaryAsset =>
                  let candidateConfig : UpdateConfig :=
                    { source := "github", channel := nc, platform := np, arch := na
                      version := parsed.version, releaseDate := parsed.releaseDate
                      releaseNotes :=
                        if parsed.releaseNotes ≠ "" then parsed.releaseNotes
                        else cleanText release.body 2000
                      sha512 := parsed.sha512, size := parsed.size
                      fileName := parsed.fileName, fileUrl := ""
                      owner := owner, repo := repo
                      releaseTag := cleanText release.tag_name 120
                      binaryAssetId := binaryAsset.id
                      binaryAssetName :=
                        if binaryAsset.name ≠ "" then cleanText binaryAsset.name 200
                        else cleanText parsed.fileName 200 }
                  match best with
                  | none => some candidateConfig
                  | some bestConfig =>
                    let cmp := compareLooseSemver candidateConfig.version bestConfig.version
                    if cmp > 0 then some candidateConfig
                    else if cmp < 0 then some bestConfig
                    else
                      -- Source comment: "Same parsed version: prefer the most
                      -- recently published release" — but the best side reads
                      -- `bestConfig.releaseDate`, the manifest date.
                      match dateParse release.published_at, dateParse bestConfig.releaseDate with
                      | some candidatePublishedAt, some bestPublishedAt =>
                        if candidatePublishedAt > bestPublishedAt then some candidateConfig
                        else some bestConfig
                      | _, _ => some bestConfig) best) none

/-- `getUpdateConfig` of `src/unnamed/part_000`: mode dispatch with the
auto-mode fallback to static configuration. -/
def getUpdateConfigCore (env : String → String) (owner repo : String)
    (fetchManifest : Nat → Option String) (dateParse : String → Option Int)
    (nowIso : String) (releases : List GhRelease)
    (channel platform arch requestedManifest : String) : Option UpdateConfig :=
  let nm := normalizeManifestName requestedManifest
  let mode := getUpdatesSourceMode env
  if mode = "env" then getEnvUpdateConfig env nowIso channel platform arch
  else
    match getGitHubUpdateConfigCore owner repo fetchManifest dateParse nowIso releases
        channel platform arch nm with
    | some c => some c
    | none =>
      if mode = "github" then none
      else getEnvUpdateConfig env nowIso channel platform arch

/-! ## Spec-side response classifier and token fixtures -/

def DlResponse.isAuthFailure : DlResponse → Bool
  | .badRequest => true
  | .tokenInvalid => true
  | .scopeMismatch => true
  | _ => false

def tokenPayloadW : TokenPayload :=
  ⟨"env", "stable", "mac", "arm64", "Nexus-1.0.0-mac-arm64.dmg", 100, "", "", 0, "", ""⟩

def jsLibW : JsLib :=
  ⟨fun _ _ => "SIG", fun _ => "PAY",
   fun s => if s = "PAY" then some tokenPayloadW else none, id, id, id, id⟩

def resolveNoneW : String → String → String → Option UpdateConfig := fun _ _ _ => none

def ghFetchW : String → String → Int → GhFetch := fun _ _ _ => .fetchError "unreachable"

def dlQueryW : DlQuery :=
  ⟨"stable", "mac", "arm64", "Nexus-1.0.0-mac-arm64.dmg", signToken jsLibW tokenPayloadW "sec"⟩

def dlQueryMismatchW : DlQuery :=
  ⟨"beta", "mac", "arm64", "Nexus-1.0.0-mac-arm64.dmg", signToken jsLibW tokenPayloadW "sec"⟩

/-! ## Concrete fixtures for the license claims -/

def licKeyW : String := "NEXUS-0123-4567-89AB-CDEF"

def metaUnboundW : Metadata := ⟨licKeyW, "", "", "", "", "", "", "2024-01-01T00:00:00.000Z", []⟩

def custUnboundW : Customer := ⟨"cus_001", "user@example.com", metaUnboundW⟩

/-- A hardware id of 129 characters whose cleaned form is cut by the
128-character cap right after a space. -/
def hwOverlongW : String := String.mk (List.replicate 127 'a') ++ " b"

def custOverlongBoundW : Customer :=
  stepCustomer (fun _ => true) custUnboundW ⟨licKeyW, hwOverlongW, "1.0.0", true, "T1"⟩

def metaShortBoundW : Metadata := ⟨licKeyW, "", "", "abcdefghij", "", "", "", "", []⟩

def custShortBoundW : Customer := ⟨"cus_006", "", metaShortBoundW⟩

/-! ## Resolver fixtures and date-comparison oracle -/

def dateParseW : String → Option Int := fun s =>
  let ds := (s.data.filter Char.isDigit).take 8
  if ds.length < 8 then none
  else some ((digitsToNat ds : Nat) : Int)

def manifestOldW : String :=
  "version: 1.0.0\nreleaseDate: \"2030-01-01T00:00:00.000Z\"\nfiles:\n  - url: https://h/dl/Nexus-1.0.0-mac-x64.dmg\n    sha512: abc\n    size: 100\npath: https://h/dl/Nexus-1.0.0-mac-x64.dmg\nsha512: abc\n"

def manifestNewW : String :=
  "version: 1.0.0\nreleaseDate: \"2021-01-01T00:00:00.000Z\"\nfiles:\n  - url: https://h/dl/Nexus2-1.0.0-mac-x64.dmg\n    sha512: abc\n    size: 100\npath: https://h/dl/Nexus2-1.0.0-mac-x64.dmg\nsha512: abc\n"

def manifestNoDateW : String :=
  "version: 1.0.0\nfiles:\n  - url: https://h/dl/Nexus-1.0.0-mac-x64.dmg\n    sha512: abc\n    size: 100\npath: https://h/dl/Nexus-1.0.0-mac-x64.dmg\nsha512: abc\n"

def relOldW : GhRelease :=
  ⟨"v-old", false, false, "2020-01-01T00:00:00Z", "",
   [⟨1, "latest-mac.yml"⟩, ⟨2, "Nexus-1.0.0-mac-x64.dmg"⟩]⟩

def relNewW : GhRelease :=
  ⟨"v-new", false, false, "2021-01-01T00:00:00Z", "",
   [⟨3, "latest-mac.yml"⟩, ⟨4, "Nexus2-1.0.0-mac-x64.dmg"⟩]⟩

def fetchManifestW : Nat → Option String := fun id =>
  if id = 1 then some manifestOldW else if id = 3 then some manifestNewW else none

def envNoSourceW : String → String := fun k =>
  if k = "UPDATE_STABLE_MAC_X64_VERSION" then "1.2.3"
  else if k = "UPDATE_STABLE_MAC_X64_FILE_URL" then "https://h/dl/Nexus-mac.dmg"
  else if k = "UPDATE_STABLE_MAC_X64_SHA512" then "abc"
  else if k = "UPDATE_STABLE_MAC_X64_SIZE" then "100"
  else ""

def manifestSansDate (m : ManifestInfo) : ManifestInfo := { m with releaseDate := "" }

def configSansDate (c : UpdateConfig) : UpdateConfig := { c with releaseDate := "" }

def manifestUndatedAW : String :=
  "version: 1.0.0\nfiles:\n  - url: https://h/dl/NexusA-1.0.0-mac-x64.dmg\n    sha512: abc\n    size: 100\npath: https://h/dl/NexusA-1.0.0-mac-x64.dmg\nsha512: abc\n"

def manifestDatedBW : String :=
  "version: 1.0.0\nreleaseDate: \"2021-01-01T00:00:00.000Z\"\nfiles:\n  - url: https://h/dl/NexusB-1.0.0-mac-x64.dmg\n    sha512: abc\n    size: 100\npath: https://h/dl/NexusB-1.0.0-mac-x64.dmg\nsha512: abc\n"

def relTieW : GhRelease :=
  ⟨"v-tie", false, false, "2021-01-01T00:00:00Z", "",
   [⟨10, "latest-mac-x64.yml"⟩, ⟨11, "latest-mac.yml"⟩,
    ⟨12, "NexusA-1.0.0-mac-x64.dmg"⟩, ⟨13, "NexusB-1.0.0-mac-x64.dmg"⟩]⟩

def fetchTieW : Nat → Option String := fun id =>
  if id = 10 then some manifestUndatedAW else if id = 11 then some manifestDatedBW else none

def envDatedW : String → String := fun k =>
  if k = "UPDATE_STABLE_MAC_X64_VERSION" then "1.2.3"
  else if k = "UPDATE_STABLE_MAC_X64_FILE_URL" then "https://h/dl/Nexus-mac.dmg"
  else if k = "UPDATE_STABLE_MAC_X64_SHA512" then "abc"
  else if k = "UPDATE_STABLE_MAC_X64_SIZE" then "100"
  else if k = "UPDATE_STABLE_MAC_X64_RELEASE_DATE" then "2021-01-01T00:00:00.000Z"
  else ""


/-! ## Helper lemmas on the license validator -/

lemma validate_bind_unbound (c : Customer) (subActive : String → Bool) (now key hw av : String)
    (hKey : normalizeLicenseKey key = key)
    (h1 : licensePatternTest key = true)
    (h2 : c.metadata.license_key = key)
    (h3 : c.metadata.license_revoked ≠ "true")
    (h4 : jsLower (if c.metadata.plan = "" then "lifetime" else c.metadata.plan) = "subscription" →
      subActive c.id = true)
    (h5 : normalizeHardwareId c.metadata.license_hardware_id = "")
    (h6 : normalizeHardwareId hw ≠ "") :
    validateLicenseRecord [c] subActive now key hw av true =
      (let plan := if c.metadata.plan = "" then "lifetime" else c.metadata.plan
       let tier := mapPlanToTier plan
       (VOut.success plan tier c.email c.metadata.license_created
          (if tier = "unlimited" then none else some "")
          true (maskHardwareId (normalizeHardwareId hw)),
        some (c.id,
          { c.metadata with
            license_last_validation_at := now
            license_last_app_version :=
              if cleanText av 64 ≠ "" then cleanText av 64 else c.metadata.license_last_app_version
            license_hardware_id := normalizeHardwareId hw
            license_hardware_bound_at := now }))) := by
  have hkne : key ≠ "" := by
    intro h
    rw [h] at h1
    exact absurd h1 (by decide)
  unfold validateLicenseRecord findCustomerByLicenseKey
  simp only [hKey, h1, hkne, h2, h5, h6, List.find?]
  by_cases hplan : jsLower (if c.metadata.plan = "" then "lifetime" else c.metadata.plan) = "subscription"
  · simp [hplan, h4 hplan, h3, h6, h5, h2]
  · simp [hplan, h3, h6, h5, h2]

lemma validate_bind_same (c : Customer) (subActive : String → Bool) (now key hw av : String)
    (hKey : normalizeLicenseKey key = key)
    (h1 : licensePatternTest key = true)
    (h2 : c.metadata.license_key = key)
    (h3 : c.metadata.license_revoked ≠ "true")
    (h4 : jsLower (if c.metadata.plan = "" then "lifetime" else c.metadata.plan) = "subscription" →
      subActive c.id = true)
    (h5 : normalizeHardwareId c.metadata.license_hardware_id = normalizeHardwareId hw)
    (h6 : normalizeHardwareId hw ≠ "") :
    validateLicenseRecord [c] subActive now key hw av true =
      (let plan := if c.metadata.plan = "" then "lifetime" else c.metadata.plan
       let tier := mapPlanToTier plan
       (VOut.success plan tier c.email c.metadata.license_created
          (if tier = "unlimited" then none else some "")
          true (maskHardwareId (normalizeHardwareId hw)),
        some (c.id,
          { c.metadata with
            license_last_validation_at := now
            license_last_app_version :=
              if cleanText av 64 ≠ "" then cleanText av 64 else c.metadata.license_last_app_version }))) := by
  have hkne : key ≠ "" := by
    intro h
    rw [h] at h1
    exact absurd h1 (by decide)
  unfold validateLicenseRecord findCustomerByLicenseKey
  simp only [hKey, h1, hkne, h2, h5, h6, List.find?]
  by_cases hplan : jsLower (if c.metadata.plan = "" then "lifetime" else c.metadata.plan) = "subscription"
  · simp [hplan, h4 hplan, h3, h6, h5, h2]
  · simp [hplan, h3, h6, h5, h2]

lemma validate_bind_mismatch (c : Customer) (subActive : String → Bool) (now key hw av : String)
    (hKey : normalizeLicenseKey key = key)
    (h1 : licensePatternTest key = true)
    (h2 : c.metadata.license_key = key)
    (h3 : c.metadata.license_revoked ≠ "true")
    (h4 : jsLower (if c.metadata.plan = "" then "lifetime" else c.metadata.plan) = "subscription" →
      subActive c.id = true)
    (h5 : normalizeHardwareId c.metadata.license_hardware_id ≠ "")
    (h5' : normalizeHardwareId c.metadata.license_hardware_id ≠ normalizeHardwareId hw)
    (h6 : normalizeHardwareId hw ≠ "") :
    validateLicenseRecord [c] subActive now key hw av true =
      (.machineMismatch (maskHardwareId (normalizeHardwareId c.metadata.license_hardware_id)),
       none) := by
  have hkne : key ≠ "" := by
    intro h
    rw [h] at h1
    exact absurd h1 (by decide)
  unfold validateLicenseRecord findCustomerByLicenseKey
  simp only [hKey, h1, hkne, h2, List.find?]
  by_cases hplan : jsLower (if c.metadata.plan = "" then "lifetime" else c.metadata.plan) = "subscription"
  · simp [hplan, h4 hplan, h3, h6, h5, h5', h2]
  · simp [hplan, h3, h6, h5, h5', h2]

lemma validate_no_bind_no_write (store : List Customer) (subActive : String → Bool)
    (now key hw av : String) :
    (validateLicenseRecord store subActive now key hw av false).2 = none := by
  unfold validateLicenseRecord
  dsimp only
  repeat' split
  all_goals first | rfl | simp_all

lemma findCustomer_singleton (c c' : Customer) (k : String)
    (h : findCustomerByLicenseKey [c] k = some c') : c' = c := by
  unfold findCustomerByLicenseKey at h
  dsimp only at h
  split at h
  · simp at h
  · simp [List.find?] at h
    split at h <;> simp_all

lemma validate_write_hardware (store : List Customer) (subActive : String → Bool)
    (now key hw av : String) (b : Bool) (cid : String) (m : Metadata)
    (heq : (validateLicenseRecord store subActive now key hw av b).2 = some (cid, m)) :
    ∃ c, findCustomerByLicenseKey store (normalizeLicenseKey key) = some c ∧ cid = c.id ∧
      m.license_hardware_id =
        (if normalizeHardwareId c.metadata.license_hardware_id = ""
         then normalizeHardwareId hw else c.metadata.license_hardware_id) := by
  unfold validateLicenseRecord at heq
  dsimp only at heq
  split at heq
  · simp at heq
  · split at heq
    · simp at heq
    · rcases hfind : findCustomerByLicenseKey store (normalizeLicenseKey key) with _ | cust
      · rw [hfind] at heq; simp at heq
      · rw [hfind] at heq
        dsimp only at heq
        repeat' split at heq
        all_goals
          first
          | exact Option.noConfusion heq
          | (simp only [Option.some.injEq, Prod.mk.injEq] at heq
             refine ⟨cust, rfl, heq.1.symm, ?_⟩
             rw [← heq.2]
             simp_all)

lemma step_bound_fixed (subActive : String → Bool) (c : Customer) (i : VInput)
    (h : normalizeHardwareId c.metadata.license_hardware_id ≠ "") :
    (stepCustomer subActive c i).metadata.license_hardware_id =
      c.metadata.license_hardware_id := by
  unfold stepCustomer
  rcases hwq : (validateLicenseRecord [c] subActive i.now i.key i.hardwareId
      i.appVersion i.bindHardware).2 with _ | ⟨cid, m⟩
  · rfl
  · obtain ⟨c', hfind, hcid, hhw⟩ := validate_write_hardware _ _ _ _ _ _ _ _ _ hwq
    have hc : c' = c := findCustomer_singleton _ _ _ hfind
    subst hc
    rw [if_neg h] at hhw
    simpa using hhw

lemma run_bound_fixed (subActive : String → Bool) (c : Customer) (is : List VInput)
    (h : normalizeHardwareId c.metadata.license_hardware_id ≠ "") :
    (runCustomer subActive c is).metadata.license_hardware_id =
      c.metadata.license_hardware_id := by
  induction is generalizing c with
  | nil => rfl
  | cons i is ih =>
    unfold runCustomer at *
    simp only [List.foldl_cons]
    have hstep := step_bound_fixed subActive c i h
    have h' : normalizeHardwareId (stepCustomer subActive c i).metadata.license_hardware_id ≠ "" := by
      rw [hstep]; exact h
    rw [ih _ h', hstep]

/-! ## Claim C1 -/

/-- C1 (amended): for a record with no bound hardware id, a well-formed
matching key and a non-empty hardware id whose normalization is stable under
re-normalization (which holds for every id whose cleaned form fits the
128-character cap), a binding validation succeeds with status 200 and binds
the normalized id exactly once; a second binding validation with the same
hardware id succeeds and leaves the bound id and bind timestamp unchanged; a
validation presenting a hardware id that normalizes differently returns
`machine_mismatch` (status 409) with no write; and across every sequence of
validations a non-empty bound hardware id is never changed (set-once). -/
theorem c1_hardwareBindingSetOnce
    (c : Customer) (subActive : String → Bool) (key hw av av2 t1 t2 : String)
    (hKey : normalizeLicenseKey key = key)
    (h1 : licensePatternTest key = true)
    (h2 : c.metadata.license_key = key)
    (h3 : c.metadata.license_revoked ≠ "true")
    (h4 : jsLower (if c.metadata.plan = "" then "lifetime" else c.metadata.plan) = "subscription" →
      subActive c.id = true)
    (h5 : normalizeHardwareId c.metadata.license_hardware_id = "")
    (h6 : normalizeHardwareId hw ≠ "")
    (h7 : normalizeHardwareId (normalizeHardwareId hw) = normalizeHardwareId hw) :
    ((validateLicenseRecord [c] subActive t1 key hw av true).1.status = 200 ∧
     (stepCustomer subActive c ⟨key, hw, av, true, t1⟩).metadata.license_hardware_id =
       normalizeHardwareId hw ∧
     (stepCustomer subActive c ⟨key, hw, av, true, t1⟩).metadata.license_hardware_bound_at = t1) ∧
    ((validateLicenseRecord [stepCustomer subActive c ⟨key, hw, av, true, t1⟩] subActive t2
        key hw av2 true).1.status = 200 ∧
     (stepCustomer subActive (stepCustomer subActive c ⟨key, hw, av, true, t1⟩)
        ⟨key, hw, av2, true, t2⟩).metadata.license_hardware_id = normalizeHardwareId hw ∧
     (stepCustomer subActive (stepCustomer subActive c ⟨key, hw, av, true, t1⟩)
        ⟨key, hw, av2, true, t2⟩).metadata.license_hardware_bound_at = t1) ∧
    (∀ hw2 av3 t3, normalizeHardwareId hw2 ≠ "" →
      normalizeHardwareId hw2 ≠ normalizeHardwareId hw →
      validateLicenseRecord [stepCustomer subActive c ⟨key, hw, av, true, t1⟩] subActive t3
          key hw2 av3 true =
        (.machineMismatch (maskHardwareId (normalizeHardwareId hw)), none)) ∧
    (∀ (c' : Customer) (is : List VInput),
      normalizeHardwareId c'.metadata.license_hardware_id ≠ "" →
      (runCustomer subActive c' is).metadata.license_hardware_id =
        c'.metadata.license_hardware_id) := by
  have hu := validate_bind_unbound c subActive t1 key hw av hKey h1 h2 h3 h4 h5 h6
  obtain ⟨M1, hid, hbound, hkey1, hrev1, hplan1, hstep1⟩ :
      ∃ M1 : Metadata, M1.license_hardware_id = normalizeHardwareId hw ∧
        M1.license_hardware_bound_at = t1 ∧ M1.license_key = c.metadata.license_key ∧
        M1.license_revoked = c.metadata.license_revoked ∧ M1.plan = c.metadata.plan ∧
        stepCustomer subActive c ⟨key, hw, av, true, t1⟩ = { c with metadata := M1 } := by
    refine ⟨{ c.metadata with
        license_last_validation_at := t1
        license_last_app_version :=
          if cleanText av 64 ≠ "" then cleanText av 64 else c.metadata.license_last_app_version
        license_hardware_id := normalizeHardwareId hw
        license_hardware_bound_at := t1 }, rfl, rfl, rfl, rfl, rfl, ?_⟩
    unfold stepCustomer
    rw [hu]
  have hsame := validate_bind_same (c := { c with metadata := M1 }) subActive t2 key hw av2
    hKey h1 (hkey1.trans h2)
    (by rw [show ({ c with metadata := M1 } : Customer).metadata.license_revoked =
        M1.license_revoked from rfl, hrev1]; exact h3)
    (by rw [show ({ c with metadata := M1 } : Customer).metadata.plan = M1.plan from rfl, hplan1]
        exact h4)
    (by rw [show ({ c with metadata := M1 } : Customer).metadata.license_hardware_id =
        M1.license_hardware_id from rfl, hid]; exact h7) h6
  refine ⟨⟨?_, ?_, ?_⟩, ⟨?_, ?_, ?_⟩, ?_, ?_⟩
  · rw [hu]
    rfl
  · rw [hstep1]
    exact hid
  · rw [hstep1]
    exact hbound
  · rw [hstep1, hsame]
    rfl
  · rw [hstep1]
    unfold stepCustomer
    rw [hsame]
    dsimp only
    exact hid
  · rw [hstep1]
    unfold stepCustomer
    rw [hsame]
    dsimp only
    exact hbound
  · intro hw2 av3 t3 hne hdiff
    rw [hstep1]
    rw [validate_bind_mismatch (c := { c with metadata := M1 }) subActive t3 key hw2 av3
      hKey h1 (hkey1.trans h2)
      (by rw [show ({ c with metadata := M1 } : Customer).metadata.license_revoked =
          M1.license_revoked from rfl, hrev1]; exact h3)
      (by rw [show ({ c with metadata := M1 } : Customer).metadata.plan = M1.plan from rfl, hplan1]
          exact h4)
      (by rw [show ({ c with metadata := M1 } : Customer).metadata.license_hardware_id =
          M1.license_hardware_id from rfl, hid, h7]; exact h6)
      (by rw [show ({ c with metadata := M1 } : Customer).metadata.license_hardware_id =
          M1.license_hardware_id from rfl, hid, h7]; exact fun hx => hdiff hx.symm) hne]
    have hmask : normalizeHardwareId ({ c with metadata := M1 } : Customer).metadata.license_hardware_id =
        normalizeHardwareId hw := by
      rw [show ({ c with metadata := M1 } : Customer).metadata.license_hardware_id =
        M1.license_hardware_id from rfl, hid, h7]
    rw [hmask]
  · exact fun c' is h => run_bound_fixed subActive c' is h

/-- C1 counterexample: the claim as stated fails. A record with no binding is bound (status 200) by hwOverlongW, a 129-character hardware id whose cleaned form is truncated at the 128-character cap right after a space; the second validate call presenting the very same hardware id is then rejected with status 409 instead of succeeding. -/
theorem c1_counterexample :
    (validateLicenseRecord [custUnboundW] (fun _ => true) "T1" licKeyW hwOverlongW "1.0.0" true).1.status = 200 ∧
    custOverlongBoundW.metadata.license_hardware_id = String.mk (List.replicate 127 'a') ++ " " ∧
    (validateLicenseRecord [custOverlongBoundW] (fun _ => true) "T2" licKeyW hwOverlongW "1.0.0"
        true).1.status = 409 := by
  exact ⟨by decide, by decide, by decide⟩

/-- C1 witness: the amended binding theorem instantiated at a concrete unbound record and hardware ids. -/
theorem c1_hardwareBindingSetOnce_witness :
    (validateLicenseRecord [custUnboundW] (fun _ => true) "T1" licKeyW "Machine-01" "1.0.0"
        true).1.status = 200 ∧
    (stepCustomer (fun _ => true) custUnboundW
        ⟨licKeyW, "Machine-01", "1.0.0", true, "T1"⟩).metadata.license_hardware_id =
      normalizeHardwareId "Machine-01" ∧
    validateLicenseRecord [stepCustomer (fun _ => true) custUnboundW
        ⟨licKeyW, "Machine-01", "1.0.0", true, "T1"⟩] (fun _ => true) "T3" licKeyW
        "machine-02" "1.0.0" true =
      (.machineMismatch (maskHardwareId (normalizeHardwareId "Machine-01")), none) := by
  have h := c1_hardwareBindingSetOnce custUnboundW (fun _ => true) licKeyW "Machine-01"
    "1.0.0" "1.0.1" "T1" "T2" (by decide) (by decide) (by decide) (by decide)
    (fun _ => rfl) (by decide) (by decide) (by decide)
  exact ⟨h.1.1, h.1.2.1, h.2.2.1 "machine-02" "1.0.0" "T3" (by decide) (by decide)⟩

/-- C6 counterexample: the claim as stated fails. For a record bound to the 10-character id "abcdefghij", a mismatching validation returns a MachineMismatch verdict whose hardware_id_masked field is the full bound hardware id, not a first-6/last-4 mask. -/
theorem c6_counterexample :
    (validateLicenseRecord [custShortBoundW] (fun _ => true) "T" licKeyW "zzz" "" true).1 =
      .machineMismatch custShortBoundW.metadata.license_hardware_id ∧
    custShortBoundW.metadata.license_hardware_id = "abcdefghij" := by
  exact ⟨by decide, by decide⟩

/-- C6 (amended): on a hardware mismatch the verdict carries maskHardwareId of the bound id, which is first-6 ++ "..." ++ last-4 exactly when the bound id is longer than 10 characters, and the full bound id itself otherwise. -/
theorem c6_machineMismatchMask
    (c : Customer) (subActive : String → Bool) (now key hw av : String)
    (hKey : normalizeLicenseKey key = key)
    (h1 : licensePatternTest key = true)
    (h2 : c.metadata.license_key = key)
    (h3 : c.metadata.license_revoked ≠ "true")
    (h4 : jsLower (if c.metadata.plan = "" then "lifetime" else c.metadata.plan) = "subscription" →
      subActive c.id = true)
    (hb : normalizeHardwareId c.metadata.license_hardware_id ≠ "")
    (hbfix : normalizeHardwareId (normalizeHardwareId c.metadata.license_hardware_id) =
      normalizeHardwareId c.metadata.license_hardware_id)
    (hne : normalizeHardwareId hw ≠ "")
    (hdiff : normalizeHardwareId c.metadata.license_hardware_id ≠ normalizeHardwareId hw) :
    validateLicenseRecord [c] subActive now key hw av true =
      (.machineMismatch (maskHardwareId (normalizeHardwareId c.metadata.license_hardware_id)),
       none) ∧
    maskHardwareId (normalizeHardwareId c.metadata.license_hardware_id) =
      (if (normalizeHardwareId c.metadata.license_hardware_id).data.length ≤ 10 then
        normalizeHardwareId c.metadata.license_hardware_id
       else
        jsSliceTo (normalizeHardwareId c.metadata.license_hardware_id) 6 ++ "..." ++
          jsSliceLast (normalizeHardwareId c.metadata.license_hardware_id) 4) := by
  refine ⟨validate_bind_mismatch c subActive now key hw av hKey h1 h2 h3 h4 hb hdiff hne, ?_⟩
  unfold maskHardwareId
  rw [hbfix, if_neg hb]

/-- C8: a validation with bindHardware = false performs no write to the record store for any store, key, hardware id or app version — the effect component is none and the record state is unchanged. -/
theorem c8_readOnlyNoWrite (store : List Customer) (subActive : String → Bool)
    (now key hw av : String) :
    (validateLicenseRecord store subActive now key hw av false).2 = none ∧
    ∀ c : Customer, stepCustomer subActive c ⟨key, hw, av, false, now⟩ = c := by
  refine ⟨validate_no_bind_no_write _ _ _ _ _ _, fun c => ?_⟩
  unfold stepCustomer
  dsimp only
  rw [validate_no_bind_no_write]

/-- C6 witness: the amended mask theorem instantiated at a concrete short bound id. -/
theorem c6_machineMismatchMask_witness :
    validateLicenseRecord [custShortBoundW] (fun _ => true) "T2" licKeyW "other-machine" "" true =
      (.machineMismatch
        (maskHardwareId (normalizeHardwareId custShortBoundW.metadata.license_hardware_id)),
       none) ∧
    maskHardwareId (normalizeHardwareId custShortBoundW.metadata.license_hardware_id) =
      (if (normalizeHardwareId custShortBoundW.metadata.license_hardware_id).data.length ≤ 10 then
        normalizeHardwareId custShortBoundW.metadata.license_hardware_id
       else
        jsSliceTo (normalizeHardwareId custShortBoundW.metadata.license_hardware_id) 6 ++ "..." ++
          jsSliceLast (normalizeHardwareId custShortBoundW.metadata.license_hardware_id) 4) :=
  c6_machineMismatchMask custShortBoundW (fun _ => true) "T2" licKeyW "other-machine" ""
    (by decide) (by decide) (by decide) (by decide) (fun _ => rfl) (by decide) (by decide)
    (by decide) (by decide)

/-! ## Claims C2 and C7: signed download tokens -/

lemma jsSplitCharAux_no_sep (sep : Char) (acc : List Char) (cs : List Char)
    (h : ∀ c ∈ cs, c ≠ sep) :
    jsSplitCharAux sep acc cs = [⟨acc.reverse ++ cs⟩] := by
  induction cs generalizing acc with
  | nil => simp [jsSplitCharAux]
  | cons c rest ih =>
    unfold jsSplitCharAux
    rw [if_neg (by exact_mod_cast h c (by simp))]
    rw [ih (c :: acc) (fun x hx => h x (by simp [hx]))]
    simp

lemma jsSplitCharAux_through (sep : Char) (suf : List Char) (acc pre : List Char)
    (h : ∀ c ∈ pre, c ≠ sep) :
    jsSplitCharAux sep acc (pre ++ sep :: suf) =
      ⟨acc.reverse ++ pre⟩ :: jsSplitCharAux sep [] suf := by
  induction pre generalizing acc with
  | nil =>
    rw [List.nil_append, jsSplitCharAux, if_pos rfl]
    simp
  | cons c rest ih =>
    rw [List.cons_append, jsSplitCharAux, if_neg (by exact_mod_cast h c (by simp))]
    rw [ih (c :: acc) (fun x hx => h x (by simp [hx]))]
    simp

lemma jsSplitChar_two (a b : String) (sep : Char)
    (ha : ∀ c ∈ a.data, c ≠ sep) (hb : ∀ c ∈ b.data, c ≠ sep) :
    jsSplitChar sep (a ++ ⟨[sep]⟩ ++ b) = [a, b] := by
  unfold jsSplitChar
  have hd : (a ++ ⟨[sep]⟩ ++ b).data = a.data ++ sep :: b.data := by
    simp [String.data_append]
  rw [hd, jsSplitCharAux_through sep b.data [] a.data ha]
  rw [jsSplitCharAux_no_sep sep [] b.data hb]
  simp

lemma verifyToken_signToken (js : JsLib) (now : Int) (p : TokenPayload) (secret : String)
    (hbody : js.b64urlEncode (js.jsonEncode p) ≠ "")
    (hbodyDot : ∀ c ∈ (js.b64urlEncode (js.jsonEncode p)).data, c ≠ '.')
    (hsig : js.hmacB64url secret (js.b64urlEncode (js.jsonEncode p)) ≠ "")
    (hsigDot : ∀ c ∈ (js.hmacB64url secret (js.b64urlEncode (js.jsonEncode p))).data, c ≠ '.')
    (hrt : js.jsonDecode (js.b64urlDecode (js.b64urlEncode (js.jsonEncode p))) = some p) :
    verifyToken js now (signToken js p secret) secret =
      (if p.exp = 0 || now > p.exp then none else some p) := by
  unfold verifyToken signToken
  have hdot : ("." : String) = (⟨['.']⟩ : String) := rfl
  rw [hdot, jsSplitChar_two _ _ '.' hbodyDot hsigDot]
  dsimp only [List.headD, List.drop]
  rw [if_neg (by simp [hbody, hsig])]
  rw [if_neg (by simp)]
  rw [if_neg (by simp)]
  rw [hrt]

lemma signToken_ne_empty (js : JsLib) (p : TokenPayload) (secret : String) :
    signToken js p secret ≠ "" := by
  unfold signToken
  intro hx
  have hd := congrArg String.data hx
  simp [String.data_append] at hd

/-- C2: a token minted by signToken for a payload scoping (channel, platform, arch, artifact) verifies before exp and passes the download gateway's scope check when presented with the identical tuple; if any single tuple field of the request differs the gateway answers 400 or the 401 scope mismatch; and after exp verification fails. The HMAC, base64url and JSON library functions are oracles constrained by per-instance hypotheses (dot-free, non-empty, decode inverts encode). -/
theorem c2_tokenRoundTrip (js : JsLib) (secret : String) (p : TokenPayload) (now : Int)
    (resolve : String → String → String → Option UpdateConfig)
    (gh : String → String → Int → GhFetch) (q : DlQuery)
    (hsecret : secret ≠ "")
    (hbody : js.b64urlEncode (js.jsonEncode p) ≠ "")
    (hbodyDot : ∀ c ∈ (js.b64urlEncode (js.jsonEncode p)).data, c ≠ '.')
    (hsig : js.hmacB64url secret (js.b64urlEncode (js.jsonEncode p)) ≠ "")
    (hsigDot : ∀ c ∈ (js.hmacB64url secret (js.b64urlEncode (js.jsonEncode p))).data, c ≠ '.')
    (hrt : js.jsonDecode (js.b64urlDecode (js.b64urlEncode (js.jsonEncode p))) = some p)
    (htok : cleanText q.t 800 = signToken js p secret)
    (hnow0 : 0 ≤ now) :
    (now < p.exp → verifyToken js now (signToken js p secret) secret = some p) ∧
    (now < p.exp → p.platform ≠ "" → p.arch ≠ "" → p.artifact ≠ "" →
      normalizeChannel q.channel = p.channel → normalizePlatform q.platform = p.platform →
      normalizeArch q.arch = p.arch → cleanText (js.uriDecode q.artifact) 200 = p.artifact →
      (updatesDownloadCore js secret now resolve gh q).isAuthFailure = false) ∧
    (now < p.exp →
      (normalizeChannel q.channel ≠ p.channel ∨ normalizePlatform q.platform ≠ p.platform ∨
       normalizeArch q.arch ≠ p.arch ∨ cleanText (js.uriDecode q.artifact) 200 ≠ p.artifact) →
      updatesDownloadCore js secret now resolve gh q = .badRequest ∨
      updatesDownloadCore js secret now resolve gh q = .scopeMismatch) ∧
    (p.exp < now → normalizePlatform q.platform ≠ "" → normalizeArch q.arch ≠ "" →
      cleanText (js.uriDecode q.artifact) 200 ≠ "" →
      updatesDownloadCore js secret now resolve gh q = .tokenInvalid) := by
  have hvt := verifyToken_signToken js now p secret hbody hbodyDot hsig hsigDot hrt
  have htokne : cleanText q.t 800 ≠ "" := by rw [htok]; exact signToken_ne_empty js p secret
  refine ⟨?_, ?_, ?_, ?_⟩
  · intro hlt
    rw [hvt, if_neg (by simp; omega)]
  · intro hlt hplatne harchne hartne hchan hplat harch hart
    unfold updatesDownloadCore
    dsimp only
    rw [hchan, hplat, harch, hart, htok]
    rw [if_neg (by simp [hplatne, harchne, hartne, signToken_ne_empty js p secret])]
    rw [if_neg hsecret]
    rw [hvt, if_neg (by simp; omega)]
    dsimp only
    rw [if_neg (by simp)]
    repeat' split
    all_goals rfl
  · intro hlt hmis
    unfold updatesDownloadCore
    dsimp only
    split
    · left; rfl
    · right
      rw [htok, hvt, if_neg (by simp; omega)]
      dsimp only
      rw [if_pos ?hpos]
      case hpos =>
        simp only [decide_eq_true_eq, Bool.or_eq_true, ne_eq]
        rcases hmis with h | h | h | h
        · exact Or.inl (Or.inl (Or.inl fun hx => h hx.symm))
        · exact Or.inl (Or.inl (Or.inr fun hx => h hx.symm))
        · exact Or.inl (Or.inr fun hx => h hx.symm)
        · exact Or.inr fun hx => h hx.symm
  · intro hgt hplatne harchne hartne
    unfold updatesDownloadCore
    dsimp only
    rw [htok]
    rw [if_neg (by simp [hplatne, harchne, hartne, signToken_ne_empty js p secret])]
    rw [if_neg hsecret]
    rw [hvt, if_pos (by simp; omega)]

/-- C7: a download request presenting a correctly signed token whose exp lies in the past is answered with the invalid-or-expired 401 (tokenInvalid) and never with the scope-mismatch 401, regardless of whether the request's scoping fields match the payload — expiry is decided inside verifyToken, before the scope comparison. -/
theorem c7_expiryDecidedBeforeScope (js : JsLib) (secret : String) (p : TokenPayload) (now : Int)
    (resolve : String → String → String → Option UpdateConfig)
    (gh : String → String → Int → GhFetch) (q : DlQuery)
    (hsecret : secret ≠ "")
    (hbody : js.b64urlEncode (js.jsonEncode p) ≠ "")
    (hbodyDot : ∀ c ∈ (js.b64urlEncode (js.jsonEncode p)).data, c ≠ '.')
    (hsig : js.hmacB64url secret (js.b64urlEncode (js.jsonEncode p)) ≠ "")
    (hsigDot : ∀ c ∈ (js.hmacB64url secret (js.b64urlEncode (js.jsonEncode p))).data, c ≠ '.')
    (hrt : js.jsonDecode (js.b64urlDecode (js.b64urlEncode (js.jsonEncode p))) = some p)
    (htok : cleanText q.t 800 = signToken js p secret)
    (hexp : p.exp < now)
    (hplatne : normalizePlatform q.platform ≠ "")
    (harchne : normalizeArch q.arch ≠ "")
    (hartne : cleanText (js.uriDecode q.artifact) 200 ≠ "") :
    updatesDownloadCore js secret now resolve gh q = .tokenInvalid ∧
    updatesDownloadCore js secret now resolve gh q ≠ .scopeMismatch := by
  have hvt := verifyToken_signToken js now p secret hbody hbodyDot hsig hsigDot hrt
  have heq : updatesDownloadCore js secret now resolve gh q = .tokenInvalid := by
    unfold updatesDownloadCore
    dsimp only
    rw [htok]
    rw [if_neg (by simp [hplatne, harchne, hartne, signToken_ne_empty js p secret])]
    rw [if_neg hsecret]
    rw [hvt, if_pos (by simp; omega)]
  exact ⟨heq, by rw [heq]; exact fun hx => DlResponse.noConfusion hx⟩

/-- C2 witness: the round-trip theorem instantiated at a concrete payload, library oracle and request. -/
theorem c2_tokenRoundTrip_witness :
    verifyToken jsLibW 50 (signToken jsLibW tokenPayloadW "sec") "sec" = some tokenPayloadW ∧
    (updatesDownloadCore jsLibW "sec" 50 resolveNoneW ghFetchW dlQueryW).isAuthFailure = false ∧
    (updatesDownloadCore jsLibW "sec" 50 resolveNoneW ghFetchW dlQueryMismatchW = .badRequest ∨
     updatesDownloadCore jsLibW "sec" 50 resolveNoneW ghFetchW dlQueryMismatchW = .scopeMismatch) ∧
    updatesDownloadCore jsLibW "sec" 150 resolveNoneW ghFetchW dlQueryW = .tokenInvalid := by
  have h1 := c2_tokenRoundTrip jsLibW "sec" tokenPayloadW 50 resolveNoneW ghFetchW dlQueryW
    (by decide) (by decide) (by decide) (by decide) (by decide) (by decide) (by decide) (by decide)
  have h2 := c2_tokenRoundTrip jsLibW "sec" tokenPayloadW 50 resolveNoneW ghFetchW dlQueryMismatchW
    (by decide) (by decide) (by decide) (by decide) (by decide) (by decide) (by decide) (by decide)
  have h3 := c2_tokenRoundTrip jsLibW "sec" tokenPayloadW 150 resolveNoneW ghFetchW dlQueryW
    (by decide) (by decide) (by decide) (by decide) (by decide) (by decide) (by decide) (by decide)
  exact ⟨h1.1 (by decide),
    h1.2.1 (by decide) (by decide) (by decide) (by decide) (by decide) (by decide) (by decide)
      (by decide),
    h2.2.2.1 (by decide) (Or.inl (by decide)),
    h3.2.2.2 (by decide) (by decide) (by decide) (by decide)⟩

/-- C7 witness: the expiry-precedence theorem instantiated at a concrete expired request with mismatching scope fields. -/
theorem c7_expiryDecidedBeforeScope_witness :
    updatesDownloadCore jsLibW "sec" 150 resolveNoneW ghFetchW dlQueryMismatchW = .tokenInvalid ∧
    updatesDownloadCore jsLibW "sec" 150 resolveNoneW ghFetchW dlQueryMismatchW ≠ .scopeMismatch :=
  c7_expiryDecidedBeforeScope jsLibW "sec" tokenPayloadW 150 resolveNoneW ghFetchW dlQueryMismatchW
    (by decide) (by decide) (by decide) (by decide) (by decide) (by decide) (by decide) (by decide)
    (by decide) (by decide) (by decide)

/-! ## Claim C10: channel leniency vs platform/arch strictness -/

/-- C10: normalizeChannel always returns "stable" or "beta" ("stable" for every unrecognized value, so no request is rejected over the channel), unrecognized platform or arch values normalize to the empty string, and both the feed handler and the download handler answer their 400 exactly when platform/arch (plus artifact and token for the download route) normalize to empty — before any resolution occurs and never because of the channel. -/
theorem c10_channelLenientPlatformStrict :
    (∀ s, normalizeChannel s = "stable" ∨ normalizeChannel s = "beta") ∧
    (∀ s, jsLower (cleanText s 16) ≠ "beta" → jsLower (cleanText s 16) ≠ "stable" →
      normalizeChannel s = "stable") ∧
    (∀ s, jsLower (cleanText s 16) ≠ "mac" → jsLower (cleanText s 16) ≠ "win" →
      jsLower (cleanText s 16) ≠ "linux" → normalizePlatform s = "") ∧
    (∀ s, jsLower (cleanText s 16) ≠ "x64" → jsLower (cleanText s 16) ≠ "arm64" →
      normalizeArch s = "") ∧
    (∀ (js : JsLib) (secret origin : String) (now : Int)
        (resolve : String → String → String → Option UpdateConfig) (q : FeedQuery),
      handleUpdaterFeedCore js secret origin now resolve q = .badRequest ↔
        (normalizePlatform q.platform = "" ∨ normalizeArch q.arch = "")) ∧
    (∀ (js : JsLib) (secret : String) (now : Int)
        (resolve : String → String → String → Option UpdateConfig)
        (gh : String → String → Int → GhFetch) (q : DlQuery),
      updatesDownloadCore js secret now resolve gh q = .badRequest ↔
        (normalizePlatform q.platform = "" ∨ normalizeArch q.arch = "" ∨
         cleanText (js.uriDecode q.artifact) 200 = "" ∨ cleanText q.t 800 = "")) := by
  refine ⟨?_, ?_, ?_, ?_, ?_, ?_⟩
  · intro s
    unfold normalizeChannel
    dsimp only
    split
    · rename_i h
      simp only [Bool.or_eq_true, decide_eq_true_eq] at h
      rcases h with h' | h'
      · left; exact h'
      · right; exact h'
    · left; rfl
  · intro s hb hs
    unfold normalizeChannel
    rw [if_neg (by simp [hb, hs])]
  · intro s h1 h2 h3
    unfold normalizePlatform
    rw [if_neg (by simp [h1, h2, h3])]
  · intro s h1 h2
    unfold normalizeArch
    rw [if_neg (by simp [h1, h2])]
  · intro js secret origin now resolve q
    constructor
    · intro h
      unfold handleUpdaterFeedCore at h
      dsimp only at h
      repeat' split at h
      all_goals simp_all
    · intro h
      unfold handleUpdaterFeedCore
      dsimp only
      rw [if_pos (by rcases h with h | h <;> simp [h])]
  · intro js secret now resolve gh q
    constructor
    · intro h
      unfold updatesDownloadCore at h
      dsimp only at h
      repeat' split at h
      all_goals simp_all
      all_goals tauto
    · intro h
      unfold updatesDownloadCore
      dsimp only
      rw [if_pos (by rcases h with h | h | h | h <;> simp [h])]

/-- C10 witness: the normalization and early-400 facts at concrete unrecognized values. -/
theorem c10_channelLenientPlatformStrict_witness :
    normalizeChannel "nightly" = "stable" ∧ normalizePlatform "solaris" = "" ∧
    normalizeArch "riscv" = "" ∧
    handleUpdaterFeedCore jsLibW "sec" "https://www.hyperfect.dev" 0 resolveNoneW
      ⟨"nightly", "solaris", "x64", "", ""⟩ = .badRequest := by
  have h := c10_channelLenientPlatformStrict
  refine ⟨h.2.1 "nightly" (by decide) (by decide),
    h.2.2.1 "solaris" (by decide) (by decide) (by decide),
    h.2.2.2.1 "riscv" (by decide) (by decide), ?_⟩
  exact (h.2.2.2.2.1 jsLibW "sec" "https://www.hyperfect.dev" 0 resolveNoneW
    ⟨"nightly", "solaris", "x64", "", ""⟩).mpr (Or.inl (by decide))

/-! ## Claim C3: manifest-hint pinning -/

lemma pushAsset_mem (st : PushState) (a? : Option GhAsset) (a : GhAsset)
    (h : a ∈ (pushAsset st a?).ordered) : a ∈ st.ordered ∨ a? = some a := by
  unfold pushAsset at h
  rcases a? with _ | b
  · exact Or.inl h
  · dsimp only at h
    repeat' split at h
    all_goals
      first
      | exact Or.inl h
      | (rcases List.mem_append.mp h with h' | h'
         · exact Or.inl h'
         · right
           simp at h'
           rw [h'])

lemma pushByNames_mem (manifests : List GhAsset) (names : List String) (st : PushState)
    (a : GhAsset) (h : a ∈ (pushByNames manifests names st).ordered) :
    a ∈ st.ordered ∨ ∃ n ∈ names, firstAssetByNames manifests [n] = some a := by
  induction names generalizing st with
  | nil => exact Or.inl h
  | cons n ns ih =>
    rw [pushByNames] at h
    rcases ih _ h with h' | ⟨n', hn', hf⟩
    · rcases pushAsset_mem _ _ _ h' with h'' | h''
      · exact Or.inl h''
      · exact Or.inr ⟨n, by simp, h''⟩
    · exact Or.inr ⟨n', by simp [hn'], hf⟩

lemma firstAssetByNames_single (manifests : List GhAsset) (n : String) (a : GhAsset)
    (h : firstAssetByNames manifests [n] = some a) : jsLower a.name = jsLower n := by
  unfold firstAssetByNames at h
  simp only [List.findSome?] at h
  rcases hf : manifests.reverse.find? (fun x => jsLower x.name = jsLower n) with _ | b
  · rw [hf] at h
    simp at h
  · rw [hf] at h
    have hp := List.find?_some hf
    simp only [decide_eq_true_eq] at hp
    simp at h
    rw [← h]
    exact hp

/-- C3: for a (beta, mac, arm64) resolution carrying the manifest hint beta-mac.yml, every asset emitted by listManifestAssets bears one of the four pinned alias names beta-mac.yml / beta-mac-arm64.yml / latest-mac-arm64.yml / latest-mac.yml, so no x64-only and no broader-fallback manifest is ever considered. -/
theorem c3_requestedManifestPinned (assets : List GhAsset) (a : GhAsset)
    (h : a ∈ listManifestAssets assets "beta" "mac" "arm64" "beta-mac.yml") :
    jsLower a.name ∈
      (["beta-mac.yml", "beta-mac-arm64.yml", "latest-mac-arm64.yml", "latest-mac.yml"] :
        List String) := by
  unfold listManifestAssets at h
  dsimp only at h
  rw [show normalizeManifestName "beta-mac.yml" = "beta-mac.yml" from by decide] at h
  rw [if_pos (by decide)] at h
  rw [show requestedAliases "beta-mac.yml" "mac" "arm64" "beta" =
    ["beta-mac.yml", "beta-mac-arm64.yml", "latest-mac-arm64.yml", "latest-mac.yml"]
    from by decide] at h
  rcases pushByNames_mem _ _ _ _ h with h' | ⟨n, hn, hf⟩
  · simp at h'
  · have hl := firstAssetByNames_single _ _ _ hf
    simp only [List.mem_cons, List.not_mem_nil, or_false] at hn
    rcases hn with rfl | rfl | rfl | rfl <;> (rw [hl]; decide)

/-- C3 witness: the pinning theorem applied to a concrete asset list containing an x64 manifest. -/
theorem c3_requestedManifestPinned_witness :
    jsLower (GhAsset.mk 3 "latest-mac-arm64.yml").name ∈
      (["beta-mac.yml", "beta-mac-arm64.yml", "latest-mac-arm64.yml", "latest-mac.yml"] :
        List String) :=
  c3_requestedManifestPinned
    [⟨1, "beta-mac.yml"⟩, ⟨2, "latest-mac-x64.yml"⟩, ⟨3, "latest-mac-arm64.yml"⟩]
    ⟨3, "latest-mac-arm64.yml"⟩ (by decide)

/-! ## Claims C4, C5, C9: release resolution -/

/-- C4 (code bug witnessed): at an exact version tie the resolver keeps the release published in 2020 whose manifest advertises releaseDate 2030 and does not select the release published in 2021 — the tie-break compares the candidate release's published_at against the incumbent's manifest releaseDate, contradicting the source's own comment "prefer the most recently published release" and the specified publish-timestamp comparison. -/
theorem c4_tieBreakComparesManifestDate :
    (getGitHubUpdateConfigCore "Sacfu" "nexus" fetchManifestW dateParseW "NOW" [relOldW, relNewW]
        "stable" "mac" "x64" "").map UpdateConfig.releaseTag = some "v-old" ∧
    compareLooseSemver "1.0.0" "1.0.0" = 0 ∧
    dateParseW relOldW.published_at = some 20200101 ∧
    dateParseW relNewW.published_at = some 20210101 :=
  ⟨by decide, by decide, by decide, by decide⟩

/-- C5 counterexample: the claim as stated fails. With UPDATE_SOURCE unset the mode is "github"; against an empty release listing and a fully populated static environment configuration, getUpdateConfig returns none even though the env source yields a config — so the default performs no static-configuration fallback. -/
theorem c5_counterexample :
    envNoSourceW "UPDATE_SOURCE" = "" ∧
    getUpdatesSourceMode envNoSourceW = "github" ∧
    getUpdateConfigCore envNoSourceW "Sacfu" "nexus" (fun _ => none) dateParseW "NOW" []
      "stable" "mac" "x64" "" = none ∧
    (getEnvUpdateConfig envNoSourceW "NOW" "stable" "mac" "x64").isSome = true :=
  ⟨by decide, by decide, by decide, by decide⟩

/-- C5 (amended): with the mode variable unset the source mode defaults to "github" and resolution equals release-host resolution alone (no env fallback); the release-host-then-env fallback behaviour holds exactly in mode "auto", i.e. when the variable is set to an unrecognized value. -/
theorem c5_defaultModeGithubOnly
    (env : String → String) (owner repo : String) (fm : Nat → Option String)
    (dp : String → Option Int) (nowIso : String) (releases : List GhRelease)
    (channel platform arch reqManifest : String) :
    (env "UPDATE_SOURCE" = "" →
      getUpdatesSourceMode env = "github" ∧
      getUpdateConfigCore env owner repo fm dp nowIso releases channel platform arch reqManifest =
        getGitHubUpdateConfigCore owner repo fm dp nowIso releases channel platform arch
          (normalizeManifestName reqManifest)) ∧
    (getUpdatesSourceMode env = "auto" →
      (getGitHubUpdateConfigCore owner repo fm dp nowIso releases channel platform arch
          (normalizeManifestName reqManifest) = none →
        getUpdateConfigCore env owner repo fm dp nowIso releases channel platform arch reqManifest =
          getEnvUpdateConfig env nowIso channel platform arch) ∧
      (∀ cfg, getGitHubUpdateConfigCore owner repo fm dp nowIso releases channel platform arch
          (normalizeManifestName reqManifest) = some cfg →
        getUpdateConfigCore env owner repo fm dp nowIso releases channel platform arch reqManifest =
          some cfg)) := by
  constructor
  · intro h
    have hm : getUpdatesSourceMode env = "github" := by
      unfold getUpdatesSourceMode
      rw [h]
      decide
    refine ⟨hm, ?_⟩
    unfold getUpdateConfigCore
    dsimp only
    rw [hm]
    rw [if_neg (by decide)]
    rcases hgh : getGitHubUpdateConfigCore owner repo fm dp nowIso releases channel platform arch
        (normalizeManifestName reqManifest) with _ | cfg
    · simp
    · simp
  · intro hm
    constructor
    · intro hgh
      unfold getUpdateConfigCore
      dsimp only
      rw [hm, if_neg (by decide), hgh]
      simp
    · intro cfg hgh
      unfold getUpdateConfigCore
      dsimp only
      rw [hm, if_neg (by decide), hgh]

/-- C5 witness: the default-mode theorem instantiated at a concrete environment with UPDATE_SOURCE unset. -/
theorem c5_defaultModeGithubOnly_witness :
    getUpdatesSourceMode envNoSourceW = "github" ∧
    getUpdateConfigCore envNoSourceW "Sacfu" "nexus" (fun _ => none) dateParseW "NOW" []
      "stable" "mac" "x64" "" =
      getGitHubUpdateConfigCore "Sacfu" "nexus" (fun _ => none) dateParseW "NOW" []
        "stable" "mac" "x64" (normalizeManifestName "") :=
  (c5_defaultModeGithubOnly envNoSourceW "Sacfu" "nexus" (fun _ => none) dateParseW "NOW" []
    "stable" "mac" "x64" "").1 (by decide)

lemma parseManifestYml_sansDate_eq (t1 t2 ymlText : String) :
    (parseManifestYml t1 ymlText).map manifestSansDate =
      (parseManifestYml t2 ymlText).map manifestSansDate := by
  unfold parseManifestYml
  dsimp only
  split
  · rfl
  · split
    · rfl
    · simp [manifestSansDate]

lemma parseManifestYml_dated_eq (t1 t2 ymlText : String)
    (hraw : manifestReleaseDateRaw ymlText ≠ "") :
    parseManifestYml t1 ymlText = parseManifestYml t2 ymlText := by
  unfold parseManifestYml
  dsimp only
  split
  · rfl
  · simp [hraw]

lemma getEnvUpdateConfig_sansDate_eq (t1 t2 : String) (env : String → String)
    (channel platform arch : String) :
    (getEnvUpdateConfig env t1 channel platform arch).map configSansDate =
      (getEnvUpdateConfig env t2 channel platform arch).map configSansDate := by
  unfold getEnvUpdateConfig
  dsimp only
  repeat' split
  all_goals rfl

lemma getEnvUpdateConfig_dated_eq (t1 t2 : String) (env : String → String)
    (channel platform arch : String)
    (hraw : getArtifactEnv env (normalizeChannel channel) (normalizePlatform platform)
      (normalizeArch arch) "RELEASE_DATE" ≠ "") :
    getEnvUpdateConfig env t1 channel platform arch =
      getEnvUpdateConfig env t2 channel platform arch := by
  unfold getEnvUpdateConfig
  dsimp only
  split
  · rfl
  · simp [hraw]

lemma ghCore_dated_eq (owner repo : String) (fm : Nat → Option String)
    (dp : String → Option Int) (t1 t2 : String) (releases : List GhRelease)
    (channel platform arch reqManifest : String)
    (h : ∀ i text, fm i = some text → manifestReleaseDateRaw text ≠ "") :
    getGitHubUpdateConfigCore owner repo fm dp t1 releases channel platform arch reqManifest =
      getGitHubUpdateConfigCore owner repo fm dp t2 releases channel platform arch reqManifest := by
  unfold getGitHubUpdateConfigCore
  dsimp only
  split
  · rfl
  · split
    · rfl
    · split
      · rfl
      · apply List.foldl_ext
        intro best release _
        apply List.foldl_ext
        intro b ma _
        rcases hfm : fm ma.id with _ | text
        · rfl
        · dsimp only
          rw [parseManifestYml_dated_eq t1 t2 text (h _ _ hfm)]

lemma updateConfigCore_dated_eq (env : String → String) (owner repo : String)
    (fm : Nat → Option String) (dp : String → Option Int) (t1 t2 : String)
    (releases : List GhRelease) (channel platform arch reqManifest : String)
    (hm : ∀ i text, fm i = some text → manifestReleaseDateRaw text ≠ "")
    (he : getArtifactEnv env (normalizeChannel channel) (normalizePlatform platform)
      (normalizeArch arch) "RELEASE_DATE" ≠ "") :
    getUpdateConfigCore env owner repo fm dp t1 releases channel platform arch reqManifest =
      getUpdateConfigCore env owner repo fm dp t2 releases channel platform arch reqManifest := by
  unfold getUpdateConfigCore
  dsimp only
  rw [ghCore_dated_eq owner repo fm dp t1 t2 releases channel platform arch
      (normalizeManifestName reqManifest) hm,
    getEnvUpdateConfig_dated_eq t1 t2 env channel platform arch he]

/-- C9 counterexample: the claim as stated fails, and not only in the releaseDate field. A manifest without a releaseDate line parses to a config whose releaseDate is the wall-clock timestamp of the call, so two calls at different times differ (likewise an env configuration without a RELEASE_DATE variable); moreover that stamped date feeds the exact-version tie-break (which compares the candidate release publish time against the incumbent config releaseDate), so against identical upstream state — one release carrying an undated manifest for artifact NexusA and a dated (2021) manifest for artifact NexusB — a resolve call at wall-clock 1999 selects NexusB while a call at 2030 selects NexusA: even the selected fileName depends on the call time. -/
theorem c9_counterexample :
    (parseManifestYml "2030-01-01T00:00:00.000Z" manifestNoDateW).map ManifestInfo.releaseDate =
      some "2030-01-01T00:00:00.000Z" ∧
    (parseManifestYml "2031-01-01T00:00:00.000Z" manifestNoDateW).map ManifestInfo.releaseDate =
      some "2031-01-01T00:00:00.000Z" ∧
    getEnvUpdateConfig envNoSourceW "TIME-A" "stable" "mac" "x64" ≠
      getEnvUpdateConfig envNoSourceW "TIME-B" "stable" "mac" "x64" ∧
    (getGitHubUpdateConfigCore "Sacfu" "nexus" fetchTieW dateParseW
        "1999-01-01T00:00:00.000Z" [relTieW] "stable" "mac" "x64" "").map UpdateConfig.fileName =
      some "NexusB-1.0.0-mac-x64.dmg" ∧
    (getGitHubUpdateConfigCore "Sacfu" "nexus" fetchTieW dateParseW
        "2030-01-01T00:00:00.000Z" [relTieW] "stable" "mac" "x64" "").map UpdateConfig.fileName =
      some "NexusA-1.0.0-mac-x64.dmg" :=
  ⟨by decide, by decide, by decide, by decide, by decide⟩

/-- C9 (amended): parseManifestYml and getEnvUpdateConfig are deterministic functions of the upstream state in every field except releaseDate, and each is fully deterministic whenever the upstream supplies its date; at the resolver level, if every fetched manifest carries a releaseDate line then getGitHubUpdateConfigCore is bit-identical across call times, and if additionally the env RELEASE_DATE variable is configured then the full getUpdateConfigCore is bit-identical across call times. -/
theorem c9_deterministicExceptStampedDate (owner repo : String) (fm : Nat → Option String)
    (dp : String → Option Int) (t1 t2 ymlText : String) (releases : List GhRelease)
    (env : String → String) (channel platform arch reqManifest : String) :
    (parseManifestYml t1 ymlText).map manifestSansDate =
      (parseManifestYml t2 ymlText).map manifestSansDate ∧
    (manifestReleaseDateRaw ymlText ≠ "" →
      parseManifestYml t1 ymlText = parseManifestYml t2 ymlText) ∧
    (getEnvUpdateConfig env t1 channel platform arch).map configSansDate =
      (getEnvUpdateConfig env t2 channel platform arch).map configSansDate ∧
    (getArtifactEnv env (normalizeChannel channel) (normalizePlatform platform)
        (normalizeArch arch) "RELEASE_DATE" ≠ "" →
      getEnvUpdateConfig env t1 channel platform arch =
        getEnvUpdateConfig env t2 channel platform arch) ∧
    ((∀ i text, fm i = some text → manifestReleaseDateRaw text ≠ "") →
      getGitHubUpdateConfigCore owner repo fm dp t1 releases channel platform arch reqManifest =
        getGitHubUpdateConfigCore owner repo fm dp t2 releases channel platform arch reqManifest) ∧
    ((∀ i text, fm i = some text → manifestReleaseDateRaw text ≠ "") →
      getArtifactEnv env (normalizeChannel channel) (normalizePlatform platform)
        (normalizeArch arch) "RELEASE_DATE" ≠ "" →
      getUpdateConfigCore env owner repo fm dp t1 releases channel platform arch reqManifest =
        getUpdateConfigCore env owner repo fm dp t2 releases channel platform arch reqManifest) :=
  ⟨parseManifestYml_sansDate_eq t1 t2 ymlText,
   fun h => parseManifestYml_dated_eq t1 t2 ymlText h,
   getEnvUpdateConfig_sansDate_eq t1 t2 env channel platform arch,
   fun h => getEnvUpdateConfig_dated_eq t1 t2 env channel platform arch h,
   fun h => ghCore_dated_eq owner repo fm dp t1 t2 releases channel platform arch reqManifest h,
   fun hm he => updateConfigCore_dated_eq env owner repo fm dp t1 t2 releases
     channel platform arch reqManifest hm he⟩

/-- C9 witness: full determinism at concrete dated inputs — a dated manifest parses identically at two call times, a dated env configuration resolves identically, and with every fetched manifest dated and RELEASE_DATE configured both the release-host resolver and the combined resolver return bit-identical configs at two call times. -/
theorem c9_deterministicExceptStampedDate_witness :
    parseManifestYml "TIME-A" manifestOldW = parseManifestYml "TIME-B" manifestOldW ∧
    getEnvUpdateConfig envDatedW "TIME-A" "stable" "mac" "x64" =
      getEnvUpdateConfig envDatedW "TIME-B" "stable" "mac" "x64" ∧
    getGitHubUpdateConfigCore "Sacfu" "nexus" (fun _ => some manifestOldW) dateParseW
        "TIME-A" [relOldW] "stable" "mac" "x64" "" =
      getGitHubUpdateConfigCore "Sacfu" "nexus" (fun _ => some manifestOldW) dateParseW
        "TIME-B" [relOldW] "stable" "mac" "x64" "" ∧
    getUpdateConfigCore envDatedW "Sacfu" "nexus" (fun _ => some manifestOldW) dateParseW
        "TIME-A" [relOldW] "stable" "mac" "x64" "" =
      getUpdateConfigCore envDatedW "Sacfu" "nexus" (fun _ => some manifestOldW) dateParseW
        "TIME-B" [relOldW] "stable" "mac" "x64" "" := by
  have h := c9_deterministicExceptStampedDate "Sacfu" "nexus" (fun _ => some manifestOldW)
    dateParseW "TIME-A" "TIME-B" manifestOldW [relOldW] envDatedW "stable" "mac" "x64" ""
  have hm : ∀ i text, (fun _ => some manifestOldW : Nat → Option String) i = some text →
      manifestReleaseDateRaw text ≠ "" := by
    intro i text hfm
    injection hfm with hEq
    rw [← hEq]
    decide
  exact ⟨h.2.1 (by decide), h.2.2.2.1 (by decide), h.2.2.2.2.1 hm, h.2.2.2.2.2 hm (by decide)⟩

end Hyperfect
